import Mathlib

set_option maxRecDepth 8000

/-!
Verification of the library cache / view-projection core of `ibroadcast-tui`
(`src/ibroadcast_tui/data_manager.py`) and of the library-fetch retry logic
(`src/ibroadcast_tui/api/client.py`), as a shallow embedding in Lean.

Python values that flow through the data manager are JSON-shaped (the data
comes from `json.load` / the JSON API), so they are modelled by the `Json`
type below.  Python `dict`s are modelled as insertion-ordered association
lists with string keys (JSON object keys are always strings; the one dict
built by the code whose keys can be arbitrary Python values,
`track_counts` in `_compute_track_counts`, is modelled separately with
`Json` keys).  Python exceptions are modelled with `Except PyErr`;
functions that cannot raise are total.  Model simplifications, called out
where they occur: `str.lower()` lowercases ASCII only, `repr` of strings
does not escape, dict equality (`==`) is compared in insertion order, and
`int(str)` parses via `String.toInt?` after trimming.  None of these is
reachable from the inputs used in any theorem below.
-/

inductive Json where
  | null
  | bool (b : Bool)
  | int (n : Int)
  | str (s : String)
  | arr (xs : List Json)
  | obj (kvs : List (String × Json))

inductive PyErr where
  | typeErr
  | keyErr
  | indexErr
  | attributeErr
  | valueErr
  deriving DecidableEq

/-- Python truthiness (`bool(x)`): `None`, `False`, `0`, `""`, `[]`, `{}` are falsy. -/
def truthy : Json → Bool
  | .null => false
  | .bool b => b
  | .int n => !(n == 0)
  | .str s => !(s == "")
  | .arr xs => !xs.isEmpty
  | .obj kvs => !kvs.isEmpty

/-- First-match lookup in a string-keyed dict (Python dict keys are unique,
so first-match agrees with dict lookup on any dict the code builds). -/
def lookupKV : List (String × Json) → String → Option Json
  | [], _ => none
  | (k, v) :: rest, key => if k == key then some v else lookupKV rest key

/-- Python `d.get(key, default)` on a string-keyed dict. -/
def dictGet (kvs : List (String × Json)) (k : String) (d : Json) : Json :=
  match lookupKV kvs k with
  | some v => v
  | none => d

/-- Python `d[key] = v`: update in place if the key is present (keeping its
position, as Python dicts do), otherwise append. -/
def setKey : List (String × Json) → String → Json → List (String × Json)
  | [], k, v => [(k, v)]
  | (k1, v1) :: rest, k, v =>
    if k1 == k then (k1, v) :: rest else (k1, v1) :: setKey rest k v

mutual
/-- Python `==` on JSON-shaped values.  `bool` compares equal to the
corresponding `int` (Python `True == 1`); container equality is
element-wise (dicts compared in insertion order, a model simplification). -/
def pyEq : Json → Json → Bool
  | .null, .null => true
  | .bool a, .bool b => a == b
  | .int a, .int b => a == b
  | .bool a, .int b => (if a then (1 : Int) else 0) == b
  | .int a, .bool b => a == (if b then (1 : Int) else 0)
  | .str a, .str b => a == b
  | .arr xs, .arr ys => pyEqList xs ys
  | .obj xs, .obj ys => pyEqKV xs ys
  | _, _ => false
def pyEqList : List Json → List Json → Bool
  | [], [] => true
  | x :: xs, y :: ys => pyEq x y && pyEqList xs ys
  | _, _ => false
def pyEqKV : List (String × Json) → List (String × Json) → Bool
  | [], [] => true
  | (k, v) :: xs, (l, w) :: ys => k == l && pyEq v w && pyEqKV xs ys
  | _, _ => false
end

mutual
/-- Python `repr(x)` for JSON-shaped values (strings quoted, no escaping). -/
def pyRepr : Json → String
  | .null => "None"
  | .bool true => "True"
  | .bool false => "False"
  | .int n => toString n
  | .str s => "\x27" ++ s ++ "\x27"
  | .arr xs => "[" ++ pyReprList xs ++ "]"
  | .obj kvs => "\x7b" ++ pyReprKV kvs ++ "\x7d"
def pyReprList : List Json → String
  | [] => ""
  | [x] => pyRepr x
  | x :: rest => pyRepr x ++ ", " ++ pyReprList rest
def pyReprKV : List (String × Json) → String
  | [] => ""
  | [(k, v)] => "\x27" ++ k ++ "\x27: " ++ pyRepr v
  | (k, v) :: rest => "\x27" ++ k ++ "\x27: " ++ pyRepr v ++ ", " ++ pyReprKV rest
end

/-- Python `str(x)`: identity on strings, `repr` otherwise (they agree on
`None`, booleans and integers). -/
def pyStr : Json → String
  | .str s => s
  | v => pyRepr v

/-- ASCII lowercasing of one character (model of `str.lower()`). -/
def pyLowerChar (c : Char) : Char :=
  if 65 ≤ c.toNat ∧ c.toNat ≤ 90 then Char.ofNat (c.toNat + 32) else c

/-- Python `s.lower()` (ASCII model). -/
def pyLower (s : String) : String := ⟨s.data.map pyLowerChar⟩

/-- Python substring test `needle in hay`. -/
def strContains (hay needle : String) : Bool :=
  (List.range (hay.data.length + 1)).any fun i => needle.data.isPrefixOf (hay.data.drop i)

/-- Code-point lexicographic `≤` on character lists (Python string order). -/
def charListLe : List Char → List Char → Bool
  | [], _ => true
  | _ :: _, [] => false
  | a :: as, b :: bs =>
    if a.toNat < b.toNat then true
    else if b.toNat < a.toNat then false
    else charListLe as bs

/-- Python `≤` on strings (code-point lexicographic). -/
def strLe (a b : String) : Bool := charListLe a.data b.data

/-- Python `<` on strings. -/
def strLt (a b : String) : Bool := strLe a b && !(a == b)

/-- Python membership `v in container`.  Dict membership hashes the key
first, so unhashable keys (lists, dicts) raise `TypeError`; list membership
compares with `==`; string membership is the substring test. -/
def pyIn (v container : Json) : Except PyErr Bool :=
  match container with
  | .obj kvs =>
    match v with
    | .arr _ => .error .typeErr
    | .obj _ => .error .typeErr
    | _ => .ok (kvs.any fun kv => pyEq v (.str kv.1))
  | .arr xs => .ok (xs.any fun x => pyEq v x)
  | .str s =>
    match v with
    | .str t => .ok (strContains s t)
    | _ => .error .typeErr
  | _ => .error .typeErr

/-- Lookup of a (hashable) Python value among the string keys of a dict. -/
def findByPyKey : List (String × Json) → Json → Option Json
  | [], _ => none
  | (k, v) :: rest, idx => if pyEq idx (.str k) then some v else findByPyKey rest idx

/-- Python subscription `container[idx]` for the shapes that occur in the
data manager: dict lookup (`KeyError` when absent, `TypeError` on an
unhashable key) and list indexing (negative indices count from the end,
`IndexError` out of range, `TypeError` for a non-integer index). -/
def pySubscript (container idx : Json) : Except PyErr Json :=
  match container with
  | .obj kvs =>
    match idx with
    | .arr _ => .error .typeErr
    | .obj _ => .error .typeErr
    | _ =>
      match findByPyKey kvs idx with
      | some v => .ok v
      | none => .error .keyErr
  | .arr xs =>
    match idx with
    | .int i =>
      let j : Int := if i < 0 then i + xs.length else i
      if h : 0 ≤ j ∧ j.toNat < xs.length then .ok (xs.get ⟨j.toNat, h.2⟩)
      else .error .indexErr
    | .bool b =>
      let j : Nat := if b then 1 else 0
      if h : j < xs.length then .ok (xs.get ⟨j, h⟩) else .error .indexErr
    | _ => .error .typeErr
  | _ => .error .typeErr

/-- Python `int(x)` for the values `_format_duration` can receive: identity
on integers, `True`/`False` to 1/0, string parsing (whitespace-trimmed
model), `ValueError`/`TypeError` (here: `none`) otherwise. -/
def pyToInt : Json → Option Int
  | .int n => some n
  | .bool b => some (if b then 1 else 0)
  | .str s => s.trim.toInt?
  | _ => none

/-! ## Cache store and normalizer (`data_manager.py`) -/

/-- Artist reference a track contributes to in `_compute_track_counts`:
`str(track_data[6])` for a list of length ≥ 7, `track_data.get("artist_id")`
for a dict, `None` otherwise. -/
def trackArtistRef (td : Json) : Json :=
  match td with
  | .arr l => if 7 ≤ l.length then .str (pyStr (l.getD 6 .null)) else .null
  | .obj kvs => dictGet kvs "artist_id" .null
  | _ => .null

/-- `track_counts[k] = track_counts.get(k, 0) + 1` on the Python-keyed
counts dict (keys compared with Python `==`, position kept on update). -/
def bumpCount : List (Json × Int) → Json → List (Json × Int)
  | [], k => [(k, 1)]
  | (k1, c) :: rest, k =>
    if pyEq k k1 then (k1, c + 1) :: rest else (k1, c) :: bumpCount rest k

/-- `track_counts.get(k, 0)`. -/
def getCount : List (Json × Int) → Json → Int
  | [], _ => 0
  | (k1, c) :: rest, k => if pyEq k k1 then c else getCount rest k

/-- `_compute_track_counts`: fold over the tracks in iteration order,
counting each truthy artist reference. -/
def computeTrackCounts (tracks : List (String × Json)) : List (Json × Int) :=
  tracks.foldl
    (fun acc te =>
      let aid := trackArtistRef te.2
      if truthy aid then bumpCount acc aid else acc) []

/-- `_add_track_counts_to_artists`. -/
def addTrackCountsToArtists (artists : List (String × Json)) (counts : List (Json × Int)) :
    List (String × Json) :=
  artists.map fun av =>
    match av.2 with
    | .arr l =>
      (av.1, .obj [("id", .str av.1),
        ("name", if !l.isEmpty then l.getD 0 .null else .str "Unknown Artist"),
        ("track_count", .int (getCount counts (.str av.1)))])
    | .obj kvs =>
      (av.1, .obj (setKey kvs "track_count" (.int (getCount counts (.str av.1)))))
    | _ =>
      (av.1, .obj [("id", .str av.1), ("name", .str "Unknown Artist"),
        ("track_count", .int (getCount counts (.str av.1)))])

/-- `_preprocess_data`: copy the payload and, when both `tracks` and
`artists` are present, replace `artists` with the count-annotated version.
`tracks.values()` / `artists.items()` on a non-dict raise (modelled as
`.error`); `dict(data)` is modelled for mappings only. -/
def preprocessData (data : Json) : Except PyErr Json :=
  match data with
  | .obj kvs =>
    match lookupKV kvs "tracks", lookupKV kvs "artists" with
    | some tracksV, some artistsV =>
      match tracksV, artistsV with
      | .obj ts, .obj as =>
        .ok (.obj (setKey kvs "artists"
          (.obj (addTrackCountsToArtists as (computeTrackCounts ts)))))
      | _, _ => .error .attributeErr
    | _, _ => .ok (.obj kvs)
  | _ => .error .typeErr

/-- On-disk state of `~/.ibroadcast_tui/library_cache.json`: missing,
existing but empty, existing with bytes that decode as UTF-8 but are not
valid JSON (`corrupt`), existing with bytes that do not decode as UTF-8
(`undecodable`), or holding a JSON document.  JSON serialization of a
`Json` value round-trips (string keys, integer numbers), so a
successfully written file is modelled by the value itself. -/
inductive CacheFile where
  | missing
  | emptyFile
  | corrupt
  | undecodable
  | stored (v : Json)

/-- `_has_cached_data`: the file exists and has non-zero size. -/
def hasCachedData : CacheFile → Bool
  | .missing => false
  | .emptyFile => false
  | _ => true

/-- `_load_cached_library`: parse the cache file.  Only
`FileNotFoundError` and `JSONDecodeError` are caught (yielding `{}`); a
file whose bytes do not decode as UTF-8 makes `json.load` raise an
uncaught `UnicodeDecodeError`, modelled as `.error .valueErr`. -/
def loadCachedLibrary : CacheFile → Except PyErr Json
  | .stored v => .ok v
  | .missing => .ok (.obj [])
  | .emptyFile => .ok (.obj [])
  | .corrupt => .ok (.obj [])
  | .undecodable => .error .valueErr

/-- `_cache_library_data`: preprocess and write; any exception (including a
preprocessing failure) is caught and logged, leaving the file unchanged.
Disk I/O itself is modelled as reliable. -/
def cacheLibraryData (data : Json) (file : CacheFile) : CacheFile :=
  match preprocessData data with
  | .ok p => .stored p
  | .error _ => file

/-! ## View projector (`data_manager.py`) -/

/-- Stable insertion of `x` into `l`: `x` goes before the first element it
compares `le` to, hence after all earlier equal-key elements. -/
def insertB {α : Type} (le : α → α → Bool) (x : α) : List α → List α
  | [] => [x]
  | y :: ys => if le x y then x :: y :: ys else y :: insertB le x ys

/-- Python `sorted` is a stable ascending sort by key; modelled by stable
insertion sort. -/
def isortB {α : Type} (le : α → α → Bool) : List α → List α
  | [] => []
  | x :: xs => insertB le x (isortB le xs)

/-- Sort key of `_prepare_albums_data_sync.get_album_title`. -/
def albumTitleKey (item : String × Json) : String :=
  match item.2 with
  | .obj kvs => pyLower (pyStr (dictGet kvs "title" (.str "")))
  | .arr l => if 0 < l.length then pyLower (pyStr (l.getD 0 .null)) else ""
  | _ => ""

/-- Sort key of `_prepare_artists_data_sync.get_artist_name`. -/
def artistNameKey (item : String × Json) : String :=
  match item.2 with
  | .obj kvs => pyLower (pyStr (dictGet kvs "name" (.str "")))
  | .arr l => if 0 < l.length then pyLower (pyStr (l.getD 0 .null)) else ""
  | _ => ""

/-- Sort key of `_prepare_playlists_data_sync.get_playlist_name`. -/
def playlistNameKey (item : String × Json) : String :=
  match item.2 with
  | .obj kvs => pyLower (pyStr (dictGet kvs "name" (.str "")))
  | .arr l => if 0 < l.length then pyLower (pyStr (l.getD 0 .null)) else ""
  | _ => ""

/-- Sort key of `_prepare_tracks_data_sync.get_track_title`. -/
def trackTitleKey (item : String × Json) : String :=
  match item.2 with
  | .obj kvs => pyLower (pyStr (dictGet kvs "title" (.str "")))
  | .arr l => if 2 < l.length then pyLower (pyStr (l.getD 2 .null)) else ""
  | _ => ""

/-- `_get_artist_name`: resolve an artist id to a display name, with
"Unknown Artist" for a falsy id, a missing `artists` collection, or an
unresolved/unusable entry.  `library_data["artists"].get(...)` raises when
the `artists` value is not a dict. -/
def getArtistName (ld artistId : Json) : Except PyErr Json := do
  if !truthy artistId then return .str "Unknown Artist"
  let present ← pyIn (.str "artists") ld
  if !present then return .str "Unknown Artist"
  let artistsV ← pySubscript ld (.str "artists")
  match artistsV with
  | .obj kvs =>
    match lookupKV kvs (pyStr artistId) with
    | some a =>
      if truthy a then
        match a with
        | .obj akvs => return dictGet akvs "name" (.str "Unknown Artist")
        | .arr l =>
          if 0 < l.length then
            return (if truthy (l.getD 0 .null) then l.getD 0 .null else .str "Unknown Artist")
          else return .str "Unknown Artist"
        | _ => return .str "Unknown Artist"
      else return .str "Unknown Artist"
    | none => return .str "Unknown Artist"
  | _ => .error .attributeErr

/-- `_get_album_name`, same shape as `_get_artist_name`. -/
def getAlbumName (ld albumId : Json) : Except PyErr Json := do
  if !truthy albumId then return .str "Unknown Album"
  let present ← pyIn (.str "albums") ld
  if !present then return .str "Unknown Album"
  let albumsV ← pySubscript ld (.str "albums")
  match albumsV with
  | .obj kvs =>
    match lookupKV kvs (pyStr albumId) with
    | some a =>
      if truthy a then
        match a with
        | .obj akvs => return dictGet akvs "title" (.str "Unknown Album")
        | .arr l =>
          if 0 < l.length then
            return (if truthy (l.getD 0 .null) then l.getD 0 .null else .str "Unknown Album")
          else return .str "Unknown Album"
        | _ => return .str "Unknown Album"
      else return .str "Unknown Album"
    | none => return .str "Unknown Album"
  | _ => .error .attributeErr

/-- `_get_track_artist_id`.  Note the off-by-one guard in the source: a
list of length exactly 6 passes `len(track) > 5` and then `track[6]`
raises `IndexError`. -/
def getTrackArtistId (track : Json) : Except PyErr Json :=
  match track with
  | .obj kvs => .ok (dictGet kvs "artist_id" (.str ""))
  | .arr l =>
    if 5 < l.length then
      if h : 6 < l.length then .ok (.str (pyStr (l.get ⟨6, h⟩))) else .error .indexErr
    else .ok (.str "")
  | _ => .ok (.str "")

/-- The generator inside `_count_artist_tracks`, left to right over the
track values. -/
def countTracksLoop (artistId : Json) : List (String × Json) → Except PyErr Int
  | [] => .ok 0
  | (_, track) :: rest =>
    match track with
    | .obj _ => do
      let aid ← getTrackArtistId track
      let c ← countTracksLoop artistId rest
      pure ((if pyStr aid == pyStr artistId then 1 else 0) + c)
    | .arr _ => do
      let aid ← getTrackArtistId track
      let c ← countTracksLoop artistId rest
      pure ((if pyStr aid == pyStr artistId then 1 else 0) + c)
    | _ => countTracksLoop artistId rest

/-- `_count_artist_tracks`. -/
def countArtistTracks (ld : Json) (artistId : Json) : Except PyErr Int := do
  let present ← pyIn (.str "tracks") ld
  if !present then return 0
  let tracksV ← pySubscript ld (.str "tracks")
  match tracksV with
  | .obj ts => countTracksLoop artistId ts
  | _ => .error .attributeErr

/-- The `f"{seconds:02d}"` field of `_format_duration`. -/
def pad2 (n : Int) : String :=
  if 0 ≤ n ∧ n < 10 then "0" ++ toString n else toString n

/-- `_format_duration`: falsy input gives "0:00"; otherwise `int()` the
value (a conversion failure is caught, giving "0:00") and format
`minutes:seconds` with `//`/`%` floor semantics (divisor 60 > 0, so
Euclidean division coincides with Python floor division). -/
def formatDuration (d : Json) : String :=
  if !truthy d then "0:00"
  else
    match pyToInt d with
    | none => "0:00"
    | some n => toString (Int.ediv n 60) ++ ":" ++ pad2 (Int.emod n 60)

/-- Loop body of `_prepare_albums_data_sync`: object entries are read by
key, list entries of length ≥ 7 positionally (shorter lists and other
shapes fall to the `continue` branch), rows are appended in order. -/
def albumsLoop (ld : Json) : List (String × Json) → List (List Json) → Except PyErr (List (List Json))
  | [], acc => .ok acc
  | (_, album) :: rest, acc =>
    match album with
    | .obj kvs => do
      let title := dictGet kvs "title" (.str "Unknown Album")
      let artistName ← getArtistName ld (dictGet kvs "artist_id" .null)
      let year := pyStr (dictGet kvs "year" (.str "Unknown"))
      let tracks := pyStr (dictGet kvs "track_count" (.int 0))
      albumsLoop ld rest (acc ++ [[title, artistName, .str year, .str tracks]])
    | .arr l =>
      if 7 ≤ l.length then do
        let title := if truthy (l.getD 0 .null) then l.getD 0 .null else .str "Unknown Album"
        let artistId := if 2 < l.length then l.getD 2 .null else .null
        let artistName ← getArtistName ld artistId
        let year := if 6 < l.length ∧ truthy (l.getD 6 .null) then pyStr (l.getD 6 .null) else "Unknown"
        let trackIds := if 1 < l.length then
            (match l.getD 1 .null with | .arr tids => tids | _ => []) else []
        albumsLoop ld rest (acc ++ [[title, artistName, .str year, .str (toString trackIds.length)]])
      else albumsLoop ld rest acc
    | _ => albumsLoop ld rest acc

/-- `_prepare_albums_data_sync`. -/
def prepareAlbumsData (ld : Json) : Except PyErr (List (List Json)) := do
  let present ← pyIn (.str "albums") ld
  if !present then return []
  let albumsV ← pySubscript ld (.str "albums")
  match albumsV with
  | .obj kvs => albumsLoop ld (isortB (fun a b => strLe (albumTitleKey a) (albumTitleKey b)) kvs) []
  | _ => .error .attributeErr

/-- Loop body of `_prepare_artists_data_sync` (list entries need length ≥ 2
and recount on the fly; object entries read the stored `track_count`). -/
def artistsLoop (ld : Json) : List (String × Json) → List (List Json) → Except PyErr (List (List Json))
  | [], acc => .ok acc
  | (aid, artist) :: rest, acc =>
    match artist with
    | .obj kvs =>
      let name := dictGet kvs "name" (.str "Unknown Artist")
      let cnt := dictGet kvs "track_count" (.int 0)
      artistsLoop ld rest (acc ++ [[name, .str (pyStr cnt)]])
    | .arr l =>
      if 2 ≤ l.length then do
        let name := if truthy (l.getD 0 .null) then l.getD 0 .null else .str "Unknown Artist"
        let cnt ← countArtistTracks ld (.str aid)
        artistsLoop ld rest (acc ++ [[name, .str (toString cnt)]])
      else artistsLoop ld rest acc
    | _ => artistsLoop ld rest acc

/-- `_prepare_artists_data_sync`. -/
def prepareArtistsData (ld : Json) : Except PyErr (List (List Json)) := do
  let present ← pyIn (.str "artists") ld
  if !present then return []
  let artistsV ← pySubscript ld (.str "artists")
  match artistsV with
  | .obj kvs => artistsLoop ld (isortB (fun a b => strLe (artistNameKey a) (artistNameKey b)) kvs) []
  | _ => .error .attributeErr

/-- Loop body of `_prepare_playlists_data_sync` (no cross-lookups, so no
exceptions). -/
def playlistsLoop : List (String × Json) → List (List Json) → List (List Json)
  | [], acc => acc
  | (_, pl) :: rest, acc =>
    match pl with
    | .obj kvs =>
      let name := dictGet kvs "name" (.str "Unknown Playlist")
      let tracks := pyStr (dictGet kvs "track_count" (.int 0))
      let description := dictGet kvs "description" (.str "")
      playlistsLoop rest (acc ++ [[name, .str tracks, description]])
    | .arr l =>
      if 2 ≤ l.length then
        let name := if truthy (l.getD 0 .null) then l.getD 0 .null else .str "Unknown Playlist"
        let trackIds := if 1 < l.length then
            (match l.getD 1 .null with | .arr t => t | _ => []) else []
        playlistsLoop rest (acc ++ [[name, .str (toString trackIds.length), .str ""]])
      else playlistsLoop rest acc
    | _ => playlistsLoop rest acc

/-- `_prepare_playlists_data_sync`. -/
def preparePlaylistsData (ld : Json) : Except PyErr (List (List Json)) := do
  let present ← pyIn (.str "playlists") ld
  if !present then return []
  let playlistsV ← pySubscript ld (.str "playlists")
  match playlistsV with
  | .obj kvs =>
    .ok (playlistsLoop (isortB (fun a b => strLe (playlistNameKey a) (playlistNameKey b)) kvs) [])
  | _ => .error .attributeErr

/-- Loop body of `_prepare_tracks_data_sync` (list entries need length ≥ 7;
artist and album names are resolved from the track's own id fields). -/
def tracksLoop (ld : Json) : List (String × Json) → List (List Json) → Except PyErr (List (List Json))
  | [], acc => .ok acc
  | (_, track) :: rest, acc =>
    match track with
    | .obj kvs => do
      let title := dictGet kvs "title" (.str "Unknown Track")
      let artistName ← getArtistName ld (dictGet kvs "artist_id" .null)
      let albumName ← getAlbumName ld (dictGet kvs "album_id" .null)
      let duration := formatDuration (dictGet kvs "duration" (.int 0))
      tracksLoop ld rest (acc ++ [[title, artistName, albumName, .str duration]])
    | .arr l =>
      if 7 ≤ l.length then do
        let title := if 2 < l.length ∧ truthy (l.getD 2 .null) then l.getD 2 .null else .str "Unknown Track"
        let artistId := if 6 < l.length then l.getD 6 .null else .null
        let albumId := if 5 < l.length then l.getD 5 .null else .null
        let artistName ← getArtistName ld artistId
        let albumName ← getAlbumName ld albumId
        let duration := formatDuration (if 4 < l.length then l.getD 4 .null else .int 0)
        tracksLoop ld rest (acc ++ [[title, artistName, albumName, .str duration]])
      else tracksLoop ld rest acc
    | _ => tracksLoop ld rest acc

/-- `_prepare_tracks_data_sync`. -/
def prepareTracksData (ld : Json) : Except PyErr (List (List Json)) := do
  let present ← pyIn (.str "tracks") ld
  if !present then return []
  let tracksV ← pySubscript ld (.str "tracks")
  match tracksV with
  | .obj kvs => tracksLoop ld (isortB (fun a b => strLe (trackTitleKey a) (trackTitleKey b)) kvs) []
  | _ => .error .attributeErr

/-! ## Search (`_search_tracks_sync`) -/

/-- Name resolution inside the search loop (`if artist_id and artist_id in
artists: ...`); distinct from `_get_artist_name` — no truthiness check on a
dict entry and the raw first element of a list entry. -/
def searchResolveName (container idv : Json) (field defaultName : String) : Except PyErr Json := do
  if truthy idv then
    let mem ← pyIn idv container
    if mem then
      let x ← pySubscript container idv
      match x with
      | .obj kvs => return dictGet kvs field (.str defaultName)
      | .arr l => if !l.isEmpty then return l.getD 0 .null else return .str defaultName
      | _ => return .str defaultName
    else return .str defaultName
  else return .str defaultName

/-- The `for track_id, track_data in tracks.items()` loop of
`_search_tracks_sync`: stop once `limit` results are collected, skip
entries that are neither a dict nor a list of length ≥ 3, match the query
against the lowercased title (`AttributeError` when a dict title is not a
string), and append `{id, title, artist, album, year: None}`. -/
def searchLoop (artists albums : Json) (ql : String) (limit : Nat) :
    List (String × Json) → List Json → Except PyErr (List Json)
  | [], acc => .ok acc
  | (tid, td) :: rest, acc =>
    if limit ≤ acc.length then .ok acc
    else
      match td with
      | .arr l =>
        if 3 ≤ l.length then
          let title := pyStr (l.getD 2 .null)
          let artistId := if 6 < l.length then Json.str (pyStr (l.getD 6 .null)) else .null
          let albumId := if 5 < l.length then Json.str (pyStr (l.getD 5 .null)) else .null
          if strContains (pyLower title) ql then do
            let artistName ← searchResolveName artists artistId "name" "Unknown Artist"
            let albumName ← searchResolveName albums albumId "title" "Unknown Album"
            searchLoop artists albums ql limit rest
              (acc ++ [.obj [("id", .str tid), ("title", .str title), ("artist", artistName),
                ("album", albumName), ("year", .null)]])
          else searchLoop artists albums ql limit rest acc
        else searchLoop artists albums ql limit rest acc
      | .obj kvs =>
        match dictGet kvs "title" (.str "") with
        | .str title =>
          let artistId := dictGet kvs "artist_id" .null
          let albumId := dictGet kvs "album_id" .null
          if strContains (pyLower title) ql then do
            let artistName ← searchResolveName artists artistId "name" "Unknown Artist"
            let albumName ← searchResolveName albums albumId "title" "Unknown Album"
            searchLoop artists albums ql limit rest
              (acc ++ [.obj [("id", .str tid), ("title", .str title), ("artist", artistName),
                ("album", albumName), ("year", .null)]])
          else searchLoop artists albums ql limit rest acc
        | _ => .error .attributeErr
      | _ => searchLoop artists albums ql limit rest acc

/-- Body of the `try` block of `_search_tracks_sync` (`data.get(...)` and
`tracks.items()` raise on non-dicts). -/
def searchBody (data : Json) (query : String) (limit : Nat) : Except PyErr (List Json) :=
  match data with
  | .obj kvs =>
    let tracks := dictGet kvs "tracks" (.obj [])
    let artists := dictGet kvs "artists" (.obj [])
    let albums := dictGet kvs "albums" (.obj [])
    match tracks with
    | .obj ts => searchLoop artists albums (pyLower query) limit ts []
    | _ => .error .attributeErr
  | _ => .error .attributeErr

/-- `_search_tracks_sync`: empty result without a cache; any exception in
the `try` body — including one escaping `_load_cached_library` — is
caught and turned into an empty result. -/
def searchTracksSync (file : CacheFile) (query : String) (limit : Nat) : List Json :=
  if !hasCachedData file then []
  else
    match loadCachedLibrary file with
    | .error _ => []
    | .ok data =>
      match searchBody data query limit with
      | .ok r => r
      | .error _ => []

/-! ## Library fetch and retry (`api/client.py`)

`get_library` is modelled over an abstract authentication state: the
client's in-memory `self.token` / `self.user_id`, and the token manager's
stored file together with its validity check.  The library endpoint is a
function from the index of each POST to its response, so "every sequence
of 401-equivalent responses" is the constant-401 server.  The recursion in
the 401 handler is modelled with explicit fuel: a `none` result means the
call did not complete within that recursion depth. -/

inductive LibResp where
  | success (lib : Json)
  | badFormat
  | code401
  | codeOther (code : Nat)
  | netErr

inductive LibResult where
  | success (lib : Json)
  | failure

structure AuthState where
  clientToken : Option String
  clientUserId : Option String
  tmStored : Option (String × String)
  tmValid : Bool
  deriving DecidableEq

/-- `token_manager.delete_token()`. -/
def deleteToken (st : AuthState) : AuthState := { st with tmStored := none, tmValid := false }

/-- `_load_stored_session`: adopt the stored token/user id when the stored
data passes the validity check. -/
def loadStoredSession (st : AuthState) : AuthState :=
  match st.tmStored with
  | some (t, u) =>
    if st.tmValid then { st with clientToken := some t, clientUserId := some u } else st
  | none => st

/-- `authenticate`: reports success immediately when the in-memory session
fields are set, otherwise runs `_login` (its outcome is the `login`
parameter: `some (token, user_id)` for a successful login, which also
saves the session, `none` for any of its error returns). -/
def clientAuthenticate (login : Option (String × String)) (st : AuthState) : AuthState × Bool :=
  if st.clientUserId.isSome && st.clientToken.isSome then (st, true)
  else
    match login with
    | some (t, u) =>
      ({ st with clientToken := some t, clientUserId := some u,
                 tmStored := some (t, u), tmValid := true }, true)
    | none => (st, false)

/-- `get_library`, fuel-indexed.  Returns the result, the final state and
the next POST index, or `none` when the recursion exhausts the fuel. -/
def getLibrary (login : Option (String × String)) (server : Nat → LibResp) :
    Nat → AuthState → Nat → Option (LibResult × AuthState × Nat)
  | 0, _, _ => none
  | fuel + 1, st, k =>
    let step1 : Option AuthState :=
      if !st.tmValid then
        let a := clientAuthenticate login st
        if a.2 then some a.1 else none
      else some st
    match step1 with
    | none => some (.failure, st, k)
    | some st1 =>
      let st2 :=
        if st1.clientToken.isNone || st1.clientUserId.isNone then loadStoredSession st1 else st1
      match server k with
      | .success lib => some (.success lib, st2, k + 1)
      | .badFormat => some (.failure, st2, k + 1)
      | .codeOther _ => some (.failure, st2, k + 1)
      | .netErr => some (.failure, st2, k + 1)
      | .code401 =>
        let st3 := deleteToken st2
        let a := clientAuthenticate login st3
        if a.2 then getLibrary login server fuel a.1 (k + 1)
        else some (.failure, a.1, k + 1)

/-! ## Spec-side definitions

These follow the specification's words, for comparison against the
embedded code (refinement claims).  They are not translations of the
source. -/

/-- Spec-side: the album a track belongs to — positional index 5
(stringified) for a full list-form track, the truthy `album_id` field
(stringified, per the spec's "stringify keys consistently") for an
object-form track. -/
def specTrackAlbumRef (td : Json) : Option String :=
  match td with
  | .arr l => if 7 ≤ l.length then some (pyStr (l.getD 5 .null)) else none
  | .obj kvs =>
    let v := dictGet kvs "album_id" .null
    if truthy v then some (pyStr v) else none
  | _ => none

/-- Spec-side: the exact number of tracks in the snapshot whose resolved
album reference is `albumId`. -/
def specAlbumTrackCount (ld : Json) (albumId : String) : Nat :=
  match ld with
  | .obj kvs =>
    match lookupKV kvs "tracks" with
    | some (.obj ts) => ts.countP fun te => specTrackAlbumRef te.2 == some albumId
    | _ => 0
  | _ => 0

/-- The artist reference a track is grouped under by the normalizer, when
truthy (`none` = the track is attributed to no artist). -/
def trackArtistRefOpt (td : Json) : Option Json :=
  let r := trackArtistRef td
  if truthy r then some r else none

/-- The number of tracks attributed to artist id `aid` (grouped by the
normalizer's extracted artist reference). -/
def specArtistTrackCount (ts : List (String × Json)) (aid : String) : Nat :=
  ts.countP fun te =>
    match trackArtistRefOpt te.2 with
    | some (.str s) => s == aid
    | _ => false

/-- Spec-side ordering for the claimed tie-break: by case-folded name
ascending, ties by ID ascending. -/
def specArtistTieLe (a b : String × Json) : Bool :=
  strLt (artistNameKey a) (artistNameKey b) ||
    (artistNameKey a == artistNameKey b && strLe a.1 b.1)

/-- Spec-side: artist rows ordered with the claimed ID tie-break (rows for
object-form artists, as the code produces them). -/
def specArtistRowsByNameThenId (ld : Json) : List (List Json) :=
  match ld with
  | .obj kvs =>
    match lookupKV kvs "artists" with
    | some (.obj as) =>
      (isortB specArtistTieLe as).foldl
        (fun acc av =>
          match av.2 with
          | .obj kvs2 =>
            acc ++ [[dictGet kvs2 "name" (.str "Unknown Artist"),
              .str (pyStr (dictGet kvs2 "track_count" (.int 0)))]]
          | _ => acc) []
    | _ => []
  | _ => []

/-- The title the search matches against, when the entry is usable as a
track (list of length ≥ 3, or a dict whose title is a string). -/
def specTrackTitle (td : Json) : Option String :=
  match td with
  | .arr l => if 3 ≤ l.length then some (pyStr (l.getD 2 .null)) else none
  | .obj kvs =>
    match dictGet kvs "title" (.str "") with
    | .str t => some t
    | _ => none
  | _ => none

/-- Track entries whose title contains the (lowercased) query. -/
def searchMatchesL (ts : List (String × Json)) (ql : String) : List (String × Json) :=
  ts.filter fun te =>
    match specTrackTitle te.2 with
    | some t => strContains (pyLower t) ql
    | none => false

/-- Spec-side: the tracks a search for `query` matches, in snapshot
iteration order. -/
def specSearchMatches (ts : List (String × Json)) (query : String) : List (String × Json) :=
  searchMatchesL ts (pyLower query)

/-- Unwrap an exception-free computation. -/
def exceptD {α : Type} (d : α) : Except PyErr α → α
  | .ok v => v
  | .error _ => d

/-- The search-result row for one matched track entry (total form; under
the well-formedness hypotheses of the search theorem the embedded
resolution never raises, so the `exceptD` defaults are never used). -/
def specSearchRow (artists albums : Json) (te : String × Json) : Json :=
  match te.2 with
  | .arr l =>
    .obj [("id", .str te.1), ("title", .str (pyStr (l.getD 2 .null))),
      ("artist", exceptD .null (searchResolveName artists
        (if 6 < l.length then Json.str (pyStr (l.getD 6 .null)) else .null) "name" "Unknown Artist")),
      ("album", exceptD .null (searchResolveName albums
        (if 5 < l.length then Json.str (pyStr (l.getD 5 .null)) else .null) "title" "Unknown Album")),
      ("year", .null)]
  | .obj kvs =>
    .obj [("id", .str te.1),
      ("title", .str (pyStr (dictGet kvs "title" (.str "")))),
      ("artist", exceptD .null (searchResolveName artists
        (dictGet kvs "artist_id" .null) "name" "Unknown Artist")),
      ("album", exceptD .null (searchResolveName albums
        (dictGet kvs "album_id" .null) "title" "Unknown Album")),
      ("year", .null)]
  | _ => .null

/-- A value usable as a Python dict key (not a list or dict). -/
def hashableScalar : Json → Bool
  | .arr _ => false
  | .obj _ => false
  | _ => true

/-- Well-formedness of one track entry for the search: an object-form
track must have a string title (else `title.lower()` raises) and hashable
id fields (else dict membership raises). -/
def wfTrackEntry : Json → Bool
  | .obj kvs =>
    (match dictGet kvs "title" (.str "") with | .str _ => true | _ => false)
      && hashableScalar (dictGet kvs "artist_id" .null)
      && hashableScalar (dictGet kvs "album_id" .null)
  | _ => true

/-- Well-formedness of a cached snapshot for the search: the three
collections are dicts (or absent) and every track entry is well-formed. -/
def wfSearchData (kvs : List (String × Json)) : Bool :=
  (match dictGet kvs "tracks" (.obj []) with
   | .obj ts => ts.all fun te => wfTrackEntry te.2
   | _ => false)
  && (match dictGet kvs "artists" (.obj []) with | .obj _ => true | _ => false)
  && (match dictGet kvs "albums" (.obj []) with | .obj _ => true | _ => false)

/-- The tracks collection of a snapshot, as an entry list. -/
def tracksEntriesOf (kvs : List (String × Json)) : List (String × Json) :=
  match dictGet kvs "tracks" (.obj []) with
  | .obj ts => ts
  | _ => []

/-- Keeps exactly the album entries the projection renders (dict, or list
of length ≥ 7). -/
def keepAlbumEntry : Json → Bool
  | .obj _ => true
  | .arr l => decide (7 ≤ l.length)
  | _ => false

/-- Keeps exactly the track entries the projection renders (dict, or list
of length ≥ 7). -/
def keepTrackEntry : Json → Bool
  | .obj _ => true
  | .arr l => decide (7 ≤ l.length)
  | _ => false

/-- Keeps exactly the artist entries the projection renders (dict, or
list of length ≥ 2). -/
def keepArtistEntry : Json → Bool
  | .obj _ => true
  | .arr l => decide (2 ≤ l.length)
  | _ => false

/-- Keeps exactly the playlist entries the projection renders (dict, or
list of length ≥ 2). -/
def keepPlaylistEntry : Json → Bool
  | .obj _ => true
  | .arr l => decide (2 ≤ l.length)
  | _ => false

/-- Spec-side: the artist row the (amended) count claim expects — the
display name next to the canonical number of tracks attributed to the
artist. -/
def normArtistRow (ts : List (String × Json)) (av : String × Json) : List Json :=
  [(match av.2 with
    | .obj kvs2 => dictGet kvs2 "name" (.str "Unknown Artist")
    | _ => .str "Unknown Artist"),
   .str (toString (specArtistTrackCount ts av.1))]

/-- The result row's "year" field is literally `None`. -/
def hasNullYear (r : Json) : Bool :=
  match r with
  | .obj kvs =>
    match lookupKV kvs "year" with
    | some .null => true
    | _ => false
  | _ => false

/-! ## Concrete inputs used in the theorems -/

/-- A library with one list-form album carrying two embedded track ids and
no tracks at all. -/
def exC1 : Json := .obj [
  ("albums", .obj [("1", .arr [.str "B", .arr [.int 101, .int 102], .str "11",
    .int 0, .int 0, .int 0, .int 2021])]),
  ("artists", .obj [("11", .arr [.str "Y", .arr []])])]

/-- A track with a null `artist_id` whose album resolves to artist "Bob". -/
def exC3 : Json := .obj [
  ("tracks", .obj [("t1", .obj [("title", .str "Song"), ("artist_id", .null),
    ("album_id", .str "a1"), ("duration", .int 60)])]),
  ("albums", .obj [("a1", .obj [("title", .str "Alb"), ("artist_id", .str "ar1")])]),
  ("artists", .obj [("ar1", .obj [("name", .str "Bob")])])]

/-- A raw payload exercising both artist wire shapes and a stale upstream
`track_count`. -/
def rawC4 : Json := .obj [
  ("tracks", .obj [("t1", .obj [("title", .str "S"), ("artist_id", .str "a1")])]),
  ("artists", .obj [("a1", .arr [.str "Ann", .arr []]),
    ("a2", .obj [("name", .str "Bo"), ("track_count", .int 99)])])]

/-- The snapshot the normalizer produces from `rawC4`. -/
def normC4 : Json := .obj [
  ("tracks", .obj [("t1", .obj [("title", .str "S"), ("artist_id", .str "a1")])]),
  ("artists", .obj [
    ("a1", .obj [("id", .str "a1"), ("name", .str "Ann"), ("track_count", .int 1)]),
    ("a2", .obj [("name", .str "Bo"), ("track_count", .int 0)])])]

/-- Two artists with the same name, inserted in descending ID order. -/
def exC6 : Json := .obj [("artists", .obj [
  ("2", .obj [("name", .str "a"), ("track_count", .int 1)]),
  ("1", .obj [("name", .str "a"), ("track_count", .int 2)])])]

/-- A library whose only album is a list of length 3 (< 7). -/
def exC7 : Json := .obj [("albums", .obj [("1", .arr [.str "B", .arr [], .str "x"])])]

/-- A snapshot with one integer-titled dict track and one matching track. -/
def exC8 : List (String × Json) := [("tracks", .obj [
  ("1", .obj [("title", .int 5)]),
  ("2", .obj [("title", .str "abc")])])]

/-- A well-formed snapshot with two matching tracks. -/
def wfC8 : List (String × Json) := [("tracks", .obj [
  ("t1", .obj [("title", .str "abc")]),
  ("t2", .obj [("title", .str "ABCD")]),
  ("t3", .obj [("title", .str "zzz")])])]

/-- A snapshot whose only track is list-form and carries a year at the
trailing index. -/
def exC10 : CacheFile := .stored (.obj [("tracks", .obj [("t1",
  .arr [.int 1, .int 1999, .str "Hello", .int 0, .int 100, .str "al", .str "ar", .str "2023"])])])

/-- A client that still holds a token and user id in memory while the
token file is deleted/expired: the state reached right after `get_library`
handles its first 401. -/
def badAuthState : AuthState :=
  { clientToken := some "t", clientUserId := some "u", tmStored := none, tmValid := false }

/-! ## Lemmas on the string order and the stable sort -/

theorem charListLe_refl (l : List Char) : charListLe l l = true := by
  induction l with
  | nil => rfl
  | cons a as ih => simp [charListLe, ih]

theorem charListLe_total (a b : List Char) :
    charListLe a b = true ∨ charListLe b a = true := by
  induction a generalizing b with
  | nil => left; rfl
  | cons x xs ih =>
    cases b with
    | nil => right; rfl
    | cons y ys =>
      rcases Nat.lt_trichotomy x.toNat y.toNat with h | h | h
      · left; simp [charListLe, h]
      · rcases ih ys with h2 | h2
        · left; simp [charListLe, h, h2]
        · right; simp [charListLe, h.symm, h2]
      · right; simp [charListLe, h]

theorem charListLe_trans (a b c : List Char) (hab : charListLe a b = true)
    (hbc : charListLe b c = true) : charListLe a c = true := by
  induction a generalizing b c with
  | nil => rfl
  | cons x xs ih =>
    cases b with
    | nil => simp [charListLe] at hab
    | cons y ys =>
      cases c with
      | nil => simp [charListLe] at hbc
      | cons z zs =>
        simp only [charListLe] at hab hbc ⊢
        by_cases hxy : x.toNat < y.toNat
        · by_cases hyz : y.toNat < z.toNat
          · simp [Nat.lt_trans hxy hyz]
          · simp [hxy] at hab
            by_cases hzy : z.toNat < y.toNat
            · simp [hyz, hzy] at hbc
            · have : y.toNat = z.toNat := Nat.le_antisymm (Nat.le_of_not_lt hzy) (Nat.le_of_not_lt hyz)
              simp [this ▸ hxy]
        · by_cases hyx : y.toNat < x.toNat
          · simp [hxy, hyx] at hab
          · have hxyeq : x.toNat = y.toNat := Nat.le_antisymm (Nat.le_of_not_lt hyx) (Nat.le_of_not_lt hxy)
            simp [hxy, hyx] at hab
            by_cases hyz : y.toNat < z.toNat
            · simp [hxyeq ▸ hyz]
            · by_cases hzy : z.toNat < y.toNat
              · simp [hyz, hzy] at hbc
              · simp [hyz, hzy] at hbc
                simp [hxyeq ▸ hyz, hxyeq ▸ hzy, ih ys zs hab hbc]

theorem strLe_refl (s : String) : strLe s s = true := charListLe_refl s.data

theorem strLe_total (a b : String) : strLe a b = true ∨ strLe b a = true :=
  charListLe_total a.data b.data

theorem strLe_trans (a b c : String) (hab : strLe a b = true) (hbc : strLe b c = true) :
    strLe a c = true := charListLe_trans a.data b.data c.data hab hbc

theorem insertB_perm {α : Type} (le : α → α → Bool) (x : α) (l : List α) :
    List.Perm (insertB le x l) (x :: l) := by
  induction l with
  | nil => exact List.Perm.refl _
  | cons y ys ih =>
    cases h : le x y with
    | true =>
      simp only [insertB, h, if_true]
      exact List.Perm.refl _
    | false =>
      simp only [insertB, h, Bool.false_eq_true, if_false]
      exact (ih.cons y).trans (List.Perm.swap x y ys)

theorem isortB_perm {α : Type} (le : α → α → Bool) (l : List α) :
    List.Perm (isortB le l) l := by
  induction l with
  | nil => exact List.Perm.refl _
  | cons x xs ih => exact (insertB_perm le x (isortB le xs)).trans (ih.cons x)

theorem insertB_pairwise {α : Type} (le : α → α → Bool)
    (htot : ∀ a b, ¬ le a b = true → le b a = true)
    (htrans : ∀ a b c, le a b = true → le b c = true → le a c = true)
    (x : α) (l : List α) (hl : l.Pairwise fun a b => le a b = true) :
    (insertB le x l).Pairwise fun a b => le a b = true := by
  induction l with
  | nil => simp [insertB]
  | cons y ys ih =>
    rcases List.pairwise_cons.mp hl with ⟨hy, hys⟩
    cases h : le x y with
    | true =>
      simp only [insertB, h, if_true]
      refine List.pairwise_cons.mpr ⟨?_, hl⟩
      intro z hz
      rcases List.mem_cons.mp hz with rfl | hz
      · exact h
      · exact htrans x y z h (hy z hz)
    | false =>
      simp only [insertB, h, Bool.false_eq_true, if_false]
      refine List.pairwise_cons.mpr ⟨?_, ih hys⟩
      intro z hz
      rcases List.mem_cons.mp ((insertB_perm le x ys).mem_iff.mp hz) with hzx | hz
      · exact hzx ▸ htot _ _ (by simp [h])
      · exact hy z hz

theorem isortB_pairwise {α : Type} (le : α → α → Bool)
    (htot : ∀ a b, ¬ le a b = true → le b a = true)
    (htrans : ∀ a b c, le a b = true → le b c = true → le a c = true)
    (l : List α) : (isortB le l).Pairwise fun a b => le a b = true := by
  induction l with
  | nil => simp [isortB]
  | cons x xs ih => exact insertB_pairwise le htot htrans x (isortB le xs) ih

theorem insertB_filter_key {α : Type} (key : α → String) (k : String) (x : α) (l : List α) :
    (insertB (fun a b => strLe (key a) (key b)) x l).filter (fun y => key y == k)
      = if key x == k then x :: l.filter (fun y => key y == k)
        else l.filter (fun y => key y == k) := by
  induction l with
  | nil => by_cases hx : key x == k <;> simp [insertB, List.filter, hx]
  | cons y ys ih =>
    cases h : strLe (key x) (key y) with
    | true =>
      simp only [insertB, h, if_true]
      by_cases hx : key x == k <;> simp [List.filter, hx]
    | false =>
      simp only [insertB, h, Bool.false_eq_true, if_false]
      by_cases hy : key y == k
      · by_cases hx : key x == k
        · exfalso
          have : key x = key y := (eq_of_beq hx).trans (eq_of_beq hy).symm
          rw [this] at h
          exact absurd (strLe_refl (key y)) (by simp [h])
        · simp [List.filter, hy, ih, hx]
      · simp [List.filter, hy, ih]

theorem isortB_filter_key {α : Type} (key : α → String) (k : String) (l : List α) :
    (isortB (fun a b => strLe (key a) (key b)) l).filter (fun y => key y == k)
      = l.filter (fun y => key y == k) := by
  induction l with
  | nil => rfl
  | cons x xs ih =>
    by_cases hx : key x == k
    · simp [isortB, insertB_filter_key, hx, List.filter, ih]
    · simp [isortB, insertB_filter_key, hx, List.filter, ih]

/-! ## Lemmas on dict primitives -/

theorem beq_string_comm (a b : String) : (a == b) = (b == a) := by
  by_cases h : a = b
  · simp [h]
  · simp [h, Ne.symm h]

theorem findByPyKey_str (kvs : List (String × Json)) (key : String) :
    findByPyKey kvs (.str key) = lookupKV kvs key := by
  induction kvs with
  | nil => rfl
  | cons kv rest ih =>
    obtain ⟨k, v⟩ := kv
    simp only [findByPyKey, lookupKV, pyEq, ih, beq_string_comm key k]

theorem pyIn_obj_str (kvs : List (String × Json)) (key : String) :
    pyIn (.str key) (.obj kvs) = .ok (lookupKV kvs key).isSome := by
  induction kvs with
  | nil => rfl
  | cons kv rest ih =>
    obtain ⟨k, v⟩ := kv
    simp only [pyIn, List.any_cons, pyEq, lookupKV] at ih ⊢
    cases h : (key == k) with
    | true =>
      have : (k == key) = true := (beq_string_comm k key).trans h
      simp [this]
    | false =>
      have : (k == key) = false := (beq_string_comm k key).trans h
      simp only [this, Bool.false_eq_true, if_false, Bool.false_or]
      exact ih

theorem lookupKV_setKey_self (l : List (String × Json)) (k : String) (v : Json) :
    lookupKV (setKey l k v) k = some v := by
  induction l with
  | nil => simp [setKey, lookupKV]
  | cons kv rest ih =>
    obtain ⟨k1, v1⟩ := kv
    cases h : (k1 == k) with
    | true => simp [setKey, h, lookupKV, eq_of_beq h]
    | false => simp [setKey, h, lookupKV, ih]

theorem lookupKV_setKey_ne (l : List (String × Json)) (k k2 : String) (v : Json)
    (h : ¬ k2 = k) : lookupKV (setKey l k v) k2 = lookupKV l k2 := by
  induction l with
  | nil =>
    have hne : (k == k2) = false := beq_eq_false_iff_ne.mpr fun hh => h hh.symm
    simp [setKey, lookupKV, hne]
  | cons kv rest ih =>
    obtain ⟨k1, v1⟩ := kv
    cases hk : (k1 == k) with
    | true =>
      have hek : k1 = k := eq_of_beq hk
      have : (k1 == k2) = false := by
        subst hek
        exact beq_eq_false_iff_ne.mpr fun hh => h hh.symm
      simp [setKey, hk, lookupKV, this]
    | false => simp [setKey, hk, lookupKV, ih]

theorem setKey_setKey (l : List (String × Json)) (k : String) (v w : Json) :
    setKey (setKey l k v) k w = setKey l k w := by
  induction l with
  | nil => simp [setKey]
  | cons kv rest ih =>
    obtain ⟨k1, v1⟩ := kv
    cases hk : (k1 == k) with
    | true => simp [setKey, hk]
    | false => simp [setKey, hk, ih]

/-! ## Claim C9 -/

theorem pad2_ofNat (m : Nat) :
    pad2 (Int.ofNat m) = if m < 10 then "0" ++ toString m else toString m := by
  have hc : Int.ofNat m = (m : Int) := rfl
  by_cases h : m < 10
  · have h2 : (0 : Int) ≤ Int.ofNat m ∧ Int.ofNat m < 10 := by rw [hc]; constructor <;> omega
    simp only [pad2, if_pos h2, if_pos h]
    rfl
  · have h2 : ¬ ((0 : Int) ≤ Int.ofNat m ∧ Int.ofNat m < 10) := by
      rw [hc]
      intro hh
      omega
    simp only [pad2, if_neg h2, if_neg h]
    rfl

theorem formatDuration_ofNat (n : Nat) :
    formatDuration (.int (Int.ofNat n))
      = toString (n / 60) ++ ":"
        ++ (if n % 60 < 10 then "0" ++ toString (n % 60) else toString (n % 60)) := by
  cases n with
  | zero => rfl
  | succ m =>
    have hz : (Int.ofNat (m + 1) == 0) = false := beq_eq_false_iff_ne.mpr (by
      rw [show Int.ofNat (m + 1) = ((m + 1 : Nat) : Int) from rfl]
      omega)
    have ht : truthy (.int (Int.ofNat (m + 1))) = true := by
      simp only [truthy, hz, Bool.not_false]
    have hdiv : Int.ediv (Int.ofNat (m + 1)) 60 = Int.ofNat ((m + 1) / 60) := rfl
    have hmod : Int.emod (Int.ofNat (m + 1)) 60 = Int.ofNat ((m + 1) % 60) := rfl
    simp only [formatDuration, ht, Bool.not_true, Bool.false_eq_true, if_false,
      pyToInt, hdiv, hmod, pad2_ofNat]
    rfl

/-- C9: for every duration input the formatter yields unpadded minutes, a
colon, and two-digit zero-padded seconds; 0, 59, 60, 200 and null give
"0:00", "0:59", "1:00", "3:20", "0:00" respectively (null models
`duration` being `None`/missing; `_format_duration` is total, so no
exception escapes it). -/
theorem c9_duration_formatting :
    (∀ n : Nat, formatDuration (.int (Int.ofNat n))
        = toString (n / 60) ++ ":"
          ++ (if n % 60 < 10 then "0" ++ toString (n % 60) else toString (n % 60)))
      ∧ formatDuration .null = "0:00"
      ∧ formatDuration (.int 0) = "0:00"
      ∧ formatDuration (.int 59) = "0:59"
      ∧ formatDuration (.int 60) = "1:00"
      ∧ formatDuration (.int 200) = "3:20" :=
  ⟨formatDuration_ofNat, rfl, rfl, rfl, rfl, rfl⟩

/-! ## Claim C5 -/

/-- C5 counterexample: an existing cache file whose bytes do not decode
as UTF-8.  Its contents fail to parse, yet `load()` does not return the
empty snapshot — `json.load` raises `UnicodeDecodeError`, which escapes
the `except (FileNotFoundError, json.JSONDecodeError)` clause, so
"never raises" fails for this on-disk state. -/
theorem c5_counterexample :
    loadCachedLibrary .undecodable = .error .valueErr
      ∧ hasCachedData .undecodable = true
      ∧ ¬ (loadCachedLibrary .undecodable = .ok (.obj [])) :=
  ⟨rfl, rfl, fun h => Except.noConfusion h⟩

/-- C5 (amended): `_load_cached_library` returns the empty snapshot `{}`
(all four collection reads empty) when the cache file is missing, empty,
or decodes as UTF-8 but fails JSON parsing — those failures raise
`FileNotFoundError`/`JSONDecodeError`, which are caught — and
`_has_cached_data` is false for a missing file; but a file whose bytes do
not decode as UTF-8 makes `load()` raise an uncaught
`UnicodeDecodeError`. -/
theorem c5_amended_load_empty_on_caught_failures :
    hasCachedData .missing = false
      ∧ loadCachedLibrary .missing = .ok (.obj [])
      ∧ loadCachedLibrary .corrupt = .ok (.obj [])
      ∧ loadCachedLibrary .emptyFile = .ok (.obj [])
      ∧ dictGet [] "tracks" (.obj []) = .obj []
      ∧ dictGet [] "artists" (.obj []) = .obj []
      ∧ dictGet [] "albums" (.obj []) = .obj []
      ∧ dictGet [] "playlists" (.obj []) = .obj []
      ∧ loadCachedLibrary .undecodable = .error .valueErr :=
  ⟨rfl, rfl, rfl, rfl, rfl, rfl, rfl, rfl, rfl⟩

/-! ## Claim C2 -/

/-- C2 (code bug): with the in-memory session still set and the token file
invalid — exactly the state `get_library` reaches after its first 401 —
a server that answers 401 to every library request drives `get_library`
into unbounded recursion: for every recursion depth the call fails to
complete (`authenticate` reports success from the stale in-memory token
without logging in again, so every retry reuses the same token).  The
claim's "at most one retry, then an error status" is violated. -/
theorem c2_get_library_diverges_on_persistent_401 :
    ∀ (fuel k : Nat) (login : Option (String × String)),
      getLibrary login (fun _ => .code401) fuel badAuthState k = none := by
  intro fuel
  induction fuel with
  | zero => intro k login; rfl
  | succ m ih =>
    intro k login
    simpa [getLibrary, badAuthState, clientAuthenticate, deleteToken] using ih (k + 1) login

/-! ## Claim C3 -/

/-- C3 counterexample: a track with a null `artist_id` whose `album_id`
resolves to an album that carries the resolvable artist "Bob".  The
projected row shows "Unknown Artist", not the album's artist: the claimed
fallback does not exist in the code. -/
theorem c3_counterexample :
    prepareTracksData exC3 = .ok [[.str "Song", .str "Unknown Artist", .str "Alb", .str "1:00"]]
      ∧ getArtistName exC3
          (dictGet [("title", .str "Alb"), ("artist_id", .str "ar1")] "artist_id" .null)
          = .ok (.str "Bob")
      ∧ ¬ (Json.str "Unknown Artist" = Json.str "Bob") :=
  ⟨rfl, rfl, by intro h; injection h with h2; exact absurd h2 (by decide)⟩

/-- C3 (amended): `_get_artist_name` has no album fallback — whenever the
track's own artist id is falsy, or the snapshot has no `artists`
collection, or the stringified id is not a key of it, the resolved name is
exactly "Unknown Artist", regardless of any album data. -/
theorem c3_amended_unresolved_artist_is_unknown (ld aid : Json)
    (h : truthy aid = false
      ∨ (∃ kvs, ld = .obj kvs ∧ lookupKV kvs "artists" = none)
      ∨ (∃ kvs akvs, ld = .obj kvs ∧ lookupKV kvs "artists" = some (.obj akvs)
          ∧ lookupKV akvs (pyStr aid) = none)) :
    getArtistName ld aid = .ok (.str "Unknown Artist") := by
  rcases h with h | ⟨kvs, rfl, hnone⟩ | ⟨kvs, akvs, rfl, hart, hmiss⟩
  · simp [getArtistName, h, pure, Except.pure]
  · by_cases ht : truthy aid = false
    · simp [getArtistName, ht, pure, Except.pure]
    · simp only [Bool.not_eq_false] at ht
      simp [getArtistName, ht, pyIn_obj_str, hnone, bind, Except.bind, pure, Except.pure]
  · by_cases ht : truthy aid = false
    · simp [getArtistName, ht, pure, Except.pure]
    · simp only [Bool.not_eq_false] at ht
      have hfind : findByPyKey kvs (.str "artists") = some (.obj akvs) :=
        (findByPyKey_str kvs "artists").trans hart
      simp [getArtistName, ht, pyIn_obj_str, hart, hfind, pySubscript, hmiss,
        bind, Except.bind, pure, Except.pure]

/-- C3 amended, witnessed: an id that is not a key of the artists
collection resolves to "Unknown Artist". -/
theorem c3_amended_witness :
    getArtistName (.obj [("artists", .obj [("x", .obj [("name", .str "N")])])]) (.str "nope")
      = .ok (.str "Unknown Artist") :=
  c3_amended_unresolved_artist_is_unknown _ _
    (.inr (.inr ⟨[("artists", .obj [("x", .obj [("name", .str "N")])])],
      [("x", .obj [("name", .str "N")])], rfl, rfl, rfl⟩))

/-! ## Claim C4 -/

theorem addTrackCounts_idem (as : List (String × Json)) (counts : List (Json × Int)) :
    addTrackCountsToArtists (addTrackCountsToArtists as counts) counts
      = addTrackCountsToArtists as counts := by
  induction as with
  | nil => rfl
  | cons av rest ih =>
    obtain ⟨aid, a⟩ := av
    cases a with
    | obj kvs =>
      simp only [addTrackCountsToArtists, List.map_cons] at ih ⊢
      rw [setKey_setKey]
      have : List.map _ (List.map _ rest) = List.map _ rest := ih
      simp only [this]
    | null =>
      simp only [addTrackCountsToArtists, List.map_cons] at ih ⊢
      rw [show setKey [("id", Json.str aid), ("name", Json.str "Unknown Artist"),
          ("track_count", Json.int (getCount counts (.str aid)))] "track_count"
          (Json.int (getCount counts (.str aid)))
        = [("id", Json.str aid), ("name", Json.str "Unknown Artist"),
          ("track_count", Json.int (getCount counts (.str aid)))] from rfl]
      simp only [ih]
    | bool b =>
      simp only [addTrackCountsToArtists, List.map_cons] at ih ⊢
      rw [show setKey [("id", Json.str aid), ("name", Json.str "Unknown Artist"),
          ("track_count", Json.int (getCount counts (.str aid)))] "track_count"
          (Json.int (getCount counts (.str aid)))
        = [("id", Json.str aid), ("name", Json.str "Unknown Artist"),
          ("track_count", Json.int (getCount counts (.str aid)))] from rfl]
      simp only [ih]
    | int n =>
      simp only [addTrackCountsToArtists, List.map_cons] at ih ⊢
      rw [show setKey [("id", Json.str aid), ("name", Json.str "Unknown Artist"),
          ("track_count", Json.int (getCount counts (.str aid)))] "track_count"
          (Json.int (getCount counts (.str aid)))
        = [("id", Json.str aid), ("name", Json.str "Unknown Artist"),
          ("track_count", Json.int (getCount counts (.str aid)))] from rfl]
      simp only [ih]
    | str s =>
      simp only [addTrackCountsToArtists, List.map_cons] at ih ⊢
      rw [show setKey [("id", Json.str aid), ("name", Json.str "Unknown Artist"),
          ("track_count", Json.int (getCount counts (.str aid)))] "track_count"
          (Json.int (getCount counts (.str aid)))
        = [("id", Json.str aid), ("name", Json.str "Unknown Artist"),
          ("track_count", Json.int (getCount counts (.str aid)))] from rfl]
      simp only [ih]
    | arr l =>
      simp only [addTrackCountsToArtists, List.map_cons] at ih ⊢
      rw [show setKey [("id", Json.str aid),
          ("name", if !l.isEmpty then l.getD 0 .null else .str "Unknown Artist"),
          ("track_count", Json.int (getCount counts (.str aid)))] "track_count"
          (Json.int (getCount counts (.str aid)))
        = [("id", Json.str aid),
          ("name", if !l.isEmpty then l.getD 0 .null else .str "Unknown Artist"),
          ("track_count", Json.int (getCount counts (.str aid)))] from rfl]
      simp only [ih]

theorem preprocess_idem (raw s : Json) (h : preprocessData raw = .ok s) :
    preprocessData s = .ok s := by
  cases raw with
  | null => simp [preprocessData] at h
  | bool b => simp [preprocessData] at h
  | int n => simp [preprocessData] at h
  | str st => simp [preprocessData] at h
  | arr l => simp [preprocessData] at h
  | obj kvs =>
    cases htr : lookupKV kvs "tracks" with
    | none =>
      simp only [preprocessData, htr] at h
      obtain rfl : Json.obj kvs = s := Except.ok.inj h
      simp [preprocessData, htr]
    | some tv =>
      cases har : lookupKV kvs "artists" with
      | none =>
        simp only [preprocessData, htr, har] at h
        obtain rfl : Json.obj kvs = s := Except.ok.inj h
        simp [preprocessData, htr, har]
      | some av =>
        simp only [preprocessData, htr, har] at h
        cases tv with
        | obj ts =>
          cases av with
          | obj as =>
            obtain rfl : Json.obj (setKey kvs "artists"
                (.obj (addTrackCountsToArtists as (computeTrackCounts ts)))) = s :=
              Except.ok.inj h
            have hne : ¬ ("tracks" : String) = "artists" := by decide
            simp only [preprocessData, lookupKV_setKey_ne kvs "artists" "tracks" _ hne, htr,
              lookupKV_setKey_self, addTrackCounts_idem, setKey_setKey]
          | null => simp at h
          | bool b => simp at h
          | int n => simp at h
          | str s2 => simp at h
          | arr l => simp at h
        | null => simp at h
        | bool b => simp at h
        | int n => simp at h
        | str s2 => simp at h
        | arr l =>
          cases av <;> simp at h

/-- C4: a snapshot produced by the normalizer survives a save/load
round-trip unchanged: `_cache_library_data` re-preprocesses before
writing, preprocessing is idempotent, and JSON (de)serialization of the
written document is the identity on this model, so `_load_cached_library`
returns exactly the saved snapshot. -/
theorem c4_save_load_roundtrip (raw s : Json) (prior : CacheFile)
    (h : preprocessData raw = .ok s) :
    loadCachedLibrary (cacheLibraryData s prior) = .ok s := by
  have h2 : preprocessData s = .ok s := preprocess_idem raw s h
  simp [cacheLibraryData, h2, loadCachedLibrary]

/-- C4, witnessed on `rawC4`: the normalized snapshot is `normC4` and it
round-trips through save/load. -/
theorem c4_roundtrip_witness :
    preprocessData rawC4 = .ok normC4
      ∧ loadCachedLibrary (cacheLibraryData normC4 .missing) = .ok normC4 :=
  ⟨rfl, c4_save_load_roundtrip rawC4 normC4 .missing rfl⟩

/-! ## Claim C6 -/

/-- C6 counterexample: two artists share the case-folded name "a" and are
stored in the snapshot in the order id "2", id "1".  The code projects
them in insertion order (track counts 1 then 2); the claimed ID-ascending
tie-break would project counts 2 then 1.  The projection therefore does
not equal the claimed name-then-ID ordering. -/
theorem c6_counterexample :
    prepareArtistsData exC6 = .ok [[.str "a", .str "1"], [.str "a", .str "2"]]
      ∧ specArtistRowsByNameThenId exC6 = [[.str "a", .str "2"], [.str "a", .str "1"]]
      ∧ ¬ (prepareArtistsData exC6 = .ok (specArtistRowsByNameThenId exC6)) := by
  refine ⟨rfl, rfl, ?_⟩
  intro h
  rw [show specArtistRowsByNameThenId exC6
      = [[.str "a", .str "2"], [.str "a", .str "1"]] from rfl] at h
  rw [show prepareArtistsData exC6
      = .ok [[.str "a", .str "1"], [.str "a", .str "2"]] from rfl] at h
  have h2 := Except.ok.inj h
  injection h2 with h3 h4
  injection h3 with h5 h6
  injection h6 with h7 h8
  injection h7 with h9
  exact absurd h9 (by decide)

/-- C6 (amended): each projection sorts its entries by the lowercased
display key, ascending; entries with equal keys keep the snapshot's
insertion order (Python's `sorted` is stable) — not ID order.  Conjuncts:
the album/artist projections process exactly the stably sorted entry
list, the sorted list is ordered by the key for all four entity kinds,
and for every key value the equal-key entries appear exactly as in the
input (stability), so the projection is deterministic. -/
theorem isortB_key_pairwise {α : Type} (key : α → String) (entries : List α) :
    (isortB (fun a b => strLe (key a) (key b)) entries).Pairwise
      (fun a b => strLe (key a) (key b) = true) :=
  isortB_pairwise _ (fun a b hab => (strLe_total (key a) (key b)).resolve_left hab)
    (fun a b c hab hbc => strLe_trans (key a) (key b) (key c) hab hbc) entries

theorem c6_amended_sort_stable_insertion_order :
    (∀ kvs entries, lookupKV kvs "albums" = some (.obj entries) →
      prepareAlbumsData (.obj kvs)
        = albumsLoop (.obj kvs)
            (isortB (fun a b => strLe (albumTitleKey a) (albumTitleKey b)) entries) [])
    ∧ (∀ kvs entries, lookupKV kvs "artists" = some (.obj entries) →
      prepareArtistsData (.obj kvs)
        = artistsLoop (.obj kvs)
            (isortB (fun a b => strLe (artistNameKey a) (artistNameKey b)) entries) [])
    ∧ (∀ entries : List (String × Json),
        ((isortB (fun a b => strLe (albumTitleKey a) (albumTitleKey b)) entries).Pairwise
          fun a b => strLe (albumTitleKey a) (albumTitleKey b) = true)
        ∧ ((isortB (fun a b => strLe (artistNameKey a) (artistNameKey b)) entries).Pairwise
          fun a b => strLe (artistNameKey a) (artistNameKey b) = true)
        ∧ ((isortB (fun a b => strLe (playlistNameKey a) (playlistNameKey b)) entries).Pairwise
          fun a b => strLe (playlistNameKey a) (playlistNameKey b) = true)
        ∧ ((isortB (fun a b => strLe (trackTitleKey a) (trackTitleKey b)) entries).Pairwise
          fun a b => strLe (trackTitleKey a) (trackTitleKey b) = true))
    ∧ (∀ (entries : List (String × Json)) (k : String),
        ((isortB (fun a b => strLe (albumTitleKey a) (albumTitleKey b)) entries).filter
            (fun y => albumTitleKey y == k) = entries.filter fun y => albumTitleKey y == k)
        ∧ ((isortB (fun a b => strLe (artistNameKey a) (artistNameKey b)) entries).filter
            (fun y => artistNameKey y == k) = entries.filter fun y => artistNameKey y == k)
        ∧ ((isortB (fun a b => strLe (playlistNameKey a) (playlistNameKey b)) entries).filter
            (fun y => playlistNameKey y == k) = entries.filter fun y => playlistNameKey y == k)
        ∧ ((isortB (fun a b => strLe (trackTitleKey a) (trackTitleKey b)) entries).filter
            (fun y => trackTitleKey y == k) = entries.filter fun y => trackTitleKey y == k)) := by
  refine ⟨?_, ?_, ?_, ?_⟩
  · intro kvs entries h
    have hfind : findByPyKey kvs (.str "albums") = some (.obj entries) :=
      (findByPyKey_str kvs "albums").trans h
    simp [prepareAlbumsData, pyIn_obj_str, h, pySubscript, hfind, bind, Except.bind,
      pure, Except.pure]
  · intro kvs entries h
    have hfind : findByPyKey kvs (.str "artists") = some (.obj entries) :=
      (findByPyKey_str kvs "artists").trans h
    simp [prepareArtistsData, pyIn_obj_str, h, pySubscript, hfind, bind, Except.bind,
      pure, Except.pure]
  · intro entries
    exact ⟨isortB_key_pairwise albumTitleKey entries, isortB_key_pairwise artistNameKey entries,
      isortB_key_pairwise playlistNameKey entries, isortB_key_pairwise trackTitleKey entries⟩
  · intro entries k
    exact ⟨isortB_filter_key albumTitleKey k entries, isortB_filter_key artistNameKey k entries,
      isortB_filter_key playlistNameKey k entries, isortB_filter_key trackTitleKey k entries⟩

/-- C6 amended, witnessed on the tied snapshot `exC6`. -/
theorem c6_amended_witness :
    prepareArtistsData (.obj [("artists", .obj [
        ("2", .obj [("name", .str "a"), ("track_count", .int 1)]),
        ("1", .obj [("name", .str "a"), ("track_count", .int 2)])])])
      = artistsLoop (.obj [("artists", .obj [
          ("2", .obj [("name", .str "a"), ("track_count", .int 1)]),
          ("1", .obj [("name", .str "a"), ("track_count", .int 2)])])])
          (isortB (fun a b => strLe (artistNameKey a) (artistNameKey b))
            [("2", .obj [("name", .str "a"), ("track_count", .int 1)]),
             ("1", .obj [("name", .str "a"), ("track_count", .int 2)])]) [] :=
  c6_amended_sort_stable_insertion_order.2.1 _ _ rfl

/-! ## Claim C7 -/

theorem albumsLoop_length (ld : Json) (entries : List (String × Json)) :
    ∀ (acc res : List (List Json)), albumsLoop ld entries acc = .ok res →
      res.length = acc.length + entries.countP (fun e => keepAlbumEntry e.2) := by
  induction entries with
  | nil =>
    intro acc res h
    obtain rfl := (Except.ok.inj h).symm
    simp
  | cons e rest ih =>
    obtain ⟨aid, album⟩ := e
    intro acc res h
    cases album with
    | obj kvs =>
      cases hg : getArtistName ld (dictGet kvs "artist_id" .null) with
      | error err =>
        simp only [albumsLoop, hg, bind, Except.bind] at h
        exact Except.noConfusion h
      | ok an =>
        simp only [albumsLoop, hg, bind, Except.bind] at h
        have hlen := ih _ _ h
        simp only [List.length_append, List.length_cons, List.length_nil] at hlen
        rw [List.countP_cons, show (if keepAlbumEntry (Json.obj kvs) then 1 else 0) = 1 from rfl]
        omega
    | arr l =>
      by_cases hl : 7 ≤ l.length
      · cases hg : getArtistName ld (if 2 < l.length then l.getD 2 .null else .null) with
        | error err =>
          simp only [albumsLoop, if_pos hl, hg, bind, Except.bind] at h
          exact Except.noConfusion h
        | ok an =>
          simp only [albumsLoop, if_pos hl, hg, bind, Except.bind] at h
          have hlen := ih _ _ h
          simp only [List.length_append, List.length_cons, List.length_nil] at hlen
          rw [List.countP_cons,
            show (if keepAlbumEntry (Json.arr l) then 1 else 0) = 1 by
              simp [keepAlbumEntry, hl]]
          omega
      · simp only [albumsLoop, if_neg hl] at h
        have hlen := ih _ _ h
        rw [List.countP_cons,
          show (if keepAlbumEntry (Json.arr l) then 1 else 0) = 0 by
            simp [keepAlbumEntry, hl]]
        omega
    | null =>
      simp only [albumsLoop] at h
      have hlen := ih _ _ h
      rw [List.countP_cons, show (if keepAlbumEntry Json.null then 1 else 0) = 0 from rfl]
      omega
    | bool b =>
      simp only [albumsLoop] at h
      have hlen := ih _ _ h
      rw [List.countP_cons, show (if keepAlbumEntry (Json.bool b) then 1 else 0) = 0 from rfl]
      omega
    | int n =>
      simp only [albumsLoop] at h
      have hlen := ih _ _ h
      rw [List.countP_cons, show (if keepAlbumEntry (Json.int n) then 1 else 0) = 0 from rfl]
      omega
    | str s =>
      simp only [albumsLoop] at h
      have hlen := ih _ _ h
      rw [List.countP_cons, show (if keepAlbumEntry (Json.str s) then 1 else 0) = 0 from rfl]
      omega

theorem tracksLoop_length (ld : Json) (entries : List (String × Json)) :
    ∀ (acc res : List (List Json)), tracksLoop ld entries acc = .ok res →
      res.length = acc.length + entries.countP (fun e => keepTrackEntry e.2) := by
  induction entries with
  | nil =>
    intro acc res h
    obtain rfl := (Except.ok.inj h).symm
    simp
  | cons e rest ih =>
    obtain ⟨tid, track⟩ := e
    intro acc res h
    cases track with
    | obj kvs =>
      cases hg : getArtistName ld (dictGet kvs "artist_id" .null) with
      | error err =>
        simp only [tracksLoop, hg, bind, Except.bind] at h
        exact Except.noConfusion h
      | ok an =>
        cases hb : getAlbumName ld (dictGet kvs "album_id" .null) with
        | error err =>
          simp only [tracksLoop, hg, hb, bind, Except.bind] at h
          exact Except.noConfusion h
        | ok bn =>
          simp only [tracksLoop, hg, hb, bind, Except.bind] at h
          have hlen := ih _ _ h
          simp only [List.length_append, List.length_cons, List.length_nil] at hlen
          rw [List.countP_cons, show (if keepTrackEntry (Json.obj kvs) then 1 else 0) = 1 from rfl]
          omega
    | arr l =>
      by_cases hl : 7 ≤ l.length
      · cases hg : getArtistName ld (if 6 < l.length then l.getD 6 .null else .null) with
        | error err =>
          simp only [tracksLoop, if_pos hl, hg, bind, Except.bind] at h
          exact Except.noConfusion h
        | ok an =>
          cases hb : getAlbumName ld (if 5 < l.length then l.getD 5 .null else .null) with
          | error err =>
            simp only [tracksLoop, if_pos hl, hg, hb, bind, Except.bind] at h
            exact Except.noConfusion h
          | ok bn =>
            simp only [tracksLoop, if_pos hl, hg, hb, bind, Except.bind] at h
            have hlen := ih _ _ h
            simp only [List.length_append, List.length_cons, List.length_nil] at hlen
            rw [List.countP_cons,
              show (if keepTrackEntry (Json.arr l) then 1 else 0) = 1 by
                simp [keepTrackEntry, hl]]
            omega
      · simp only [tracksLoop, if_neg hl] at h
        have hlen := ih _ _ h
        rw [List.countP_cons,
          show (if keepTrackEntry (Json.arr l) then 1 else 0) = 0 by
            simp [keepTrackEntry, hl]]
        omega
    | null =>
      simp only [tracksLoop] at h
      have hlen := ih _ _ h
      rw [List.countP_cons, show (if keepTrackEntry Json.null then 1 else 0) = 0 from rfl]
      omega
    | bool b =>
      simp only [tracksLoop] at h
      have hlen := ih _ _ h
      rw [List.countP_cons, show (if keepTrackEntry (Json.bool b) then 1 else 0) = 0 from rfl]
      omega
    | int n =>
      simp only [tracksLoop] at h
      have hlen := ih _ _ h
      rw [List.countP_cons, show (if keepTrackEntry (Json.int n) then 1 else 0) = 0 from rfl]
      omega
    | str s =>
      simp only [tracksLoop] at h
      have hlen := ih _ _ h
      rw [List.countP_cons, show (if keepTrackEntry (Json.str s) then 1 else 0) = 0 from rfl]
      omega

theorem artistsLoop_length (ld : Json) (entries : List (String × Json)) :
    ∀ (acc res : List (List Json)), artistsLoop ld entries acc = .ok res →
      res.length = acc.length + entries.countP (fun e => keepArtistEntry e.2) := by
  induction entries with
  | nil =>
    intro acc res h
    obtain rfl := (Except.ok.inj h).symm
    simp
  | cons e rest ih =>
    obtain ⟨aid, artist⟩ := e
    intro acc res h
    cases artist with
    | obj kvs =>
      simp only [artistsLoop] at h
      have hlen := ih _ _ h
      simp only [List.length_append, List.length_cons, List.length_nil] at hlen
      rw [List.countP_cons, show (if keepArtistEntry (Json.obj kvs) then 1 else 0) = 1 from rfl]
      omega
    | arr l =>
      by_cases hl : 2 ≤ l.length
      · cases hg : countArtistTracks ld (.str aid) with
        | error err =>
          simp only [artistsLoop, if_pos hl, hg, bind, Except.bind] at h
          exact Except.noConfusion h
        | ok cnt =>
          simp only [artistsLoop, if_pos hl, hg, bind, Except.bind] at h
          have hlen := ih _ _ h
          simp only [List.length_append, List.length_cons, List.length_nil] at hlen
          rw [List.countP_cons,
            show (if keepArtistEntry (Json.arr l) then 1 else 0) = 1 by
              simp [keepArtistEntry, hl]]
          omega
      · simp only [artistsLoop, if_neg hl] at h
        have hlen := ih _ _ h
        rw [List.countP_cons,
          show (if keepArtistEntry (Json.arr l) then 1 else 0) = 0 by
            simp [keepArtistEntry, hl]]
        omega
    | null =>
      simp only [artistsLoop] at h
      have hlen := ih _ _ h
      rw [List.countP_cons, show (if keepArtistEntry Json.null then 1 else 0) = 0 from rfl]
      omega
    | bool b =>
      simp only [artistsLoop] at h
      have hlen := ih _ _ h
      rw [List.countP_cons, show (if keepArtistEntry (Json.bool b) then 1 else 0) = 0 from rfl]
      omega
    | int n =>
      simp only [artistsLoop] at h
      have hlen := ih _ _ h
      rw [List.countP_cons, show (if keepArtistEntry (Json.int n) then 1 else 0) = 0 from rfl]
      omega
    | str s =>
      simp only [artistsLoop] at h
      have hlen := ih _ _ h
      rw [List.countP_cons, show (if keepArtistEntry (Json.str s) then 1 else 0) = 0 from rfl]
      omega

theorem playlistsLoop_length (entries : List (String × Json)) :
    ∀ acc : List (List Json),
      (playlistsLoop entries acc).length
        = acc.length + entries.countP (fun e => keepPlaylistEntry e.2) := by
  induction entries with
  | nil => intro acc; simp [playlistsLoop]
  | cons e rest ih =>
    obtain ⟨pid, pl⟩ := e
    intro acc
    cases pl with
    | obj kvs =>
      simp only [playlistsLoop]
      rw [ih, List.countP_cons,
        show (if keepPlaylistEntry (Json.obj kvs) then 1 else 0) = 1 from rfl]
      simp only [List.length_append, List.length_cons, List.length_nil]
      omega
    | arr l =>
      by_cases hl : 2 ≤ l.length
      · simp only [playlistsLoop, if_pos hl]
        rw [ih, List.countP_cons,
          show (if keepPlaylistEntry (Json.arr l) then 1 else 0) = 1 by
            simp [keepPlaylistEntry, hl]]
        simp only [List.length_append, List.length_cons, List.length_nil]
        omega
      · simp only [playlistsLoop, if_neg hl]
        rw [ih, List.countP_cons,
          show (if keepPlaylistEntry (Json.arr l) then 1 else 0) = 0 by
            simp [keepPlaylistEntry, hl]]
        omega
    | null =>
      simp only [playlistsLoop]
      rw [ih, List.countP_cons, show (if keepPlaylistEntry Json.null then 1 else 0) = 0 from rfl]
      omega
    | bool b =>
      simp only [playlistsLoop]
      rw [ih, List.countP_cons,
        show (if keepPlaylistEntry (Json.bool b) then 1 else 0) = 0 from rfl]
      omega
    | int n =>
      simp only [playlistsLoop]
      rw [ih, List.countP_cons,
        show (if keepPlaylistEntry (Json.int n) then 1 else 0) = 0 from rfl]
      omega
    | str s =>
      simp only [playlistsLoop]
      rw [ih, List.countP_cons,
        show (if keepPlaylistEntry (Json.str s) then 1 else 0) = 0 from rfl]
      omega

/-- C7 counterexample: a library whose only album entry is a list of
length 3 (< 7).  The projection produces no row for it — the entry is
skipped like a wrong-type entry, not rendered with defaults. -/
theorem c7_counterexample :
    prepareAlbumsData exC7 = .ok []
      ∧ lookupKV [("1", Json.arr [.str "B", .arr [], .str "x"])] "1"
          = some (.arr [.str "B", .arr [], .str "x"]) :=
  ⟨rfl, rfl⟩

/-- C7 (amended): list-form entries shorter than the branch's minimum
arity (7 for albums and tracks, 2 for artists and playlists) are skipped,
exactly like entries that are neither a list nor a dict; a row is produced
precisely for each dict entry or list entry meeting the minimum, so the
row count equals the count of such entries, in all four projections. -/
theorem c7_amended_short_lists_skipped :
    (∀ kvs entries rows, lookupKV kvs "albums" = some (.obj entries) →
      prepareAlbumsData (.obj kvs) = .ok rows →
      rows.length = entries.countP fun e => keepAlbumEntry e.2)
    ∧ (∀ kvs entries rows, lookupKV kvs "tracks" = some (.obj entries) →
      prepareTracksData (.obj kvs) = .ok rows →
      rows.length = entries.countP fun e => keepTrackEntry e.2)
    ∧ (∀ kvs entries rows, lookupKV kvs "artists" = some (.obj entries) →
      prepareArtistsData (.obj kvs) = .ok rows →
      rows.length = entries.countP fun e => keepArtistEntry e.2)
    ∧ (∀ kvs entries rows, lookupKV kvs "playlists" = some (.obj entries) →
      preparePlaylistsData (.obj kvs) = .ok rows →
      rows.length = entries.countP fun e => keepPlaylistEntry e.2) := by
  refine ⟨?_, ?_, ?_, ?_⟩
  · intro kvs entries rows h hp
    have hfind : findByPyKey kvs (.str "albums") = some (.obj entries) :=
      (findByPyKey_str kvs "albums").trans h
    simp only [prepareAlbumsData, pyIn_obj_str, h, pySubscript, hfind, bind, Except.bind,
      pure, Except.pure, Option.isSome_some, Bool.not_true, Bool.false_eq_true, if_false] at hp
    have hlen := albumsLoop_length (.obj kvs) _ _ _ hp
    simp only [List.length_nil, Nat.zero_add] at hlen
    rw [hlen]
    exact (isortB_perm _ entries).countP_eq _
  · intro kvs entries rows h hp
    have hfind : findByPyKey kvs (.str "tracks") = some (.obj entries) :=
      (findByPyKey_str kvs "tracks").trans h
    simp only [prepareTracksData, pyIn_obj_str, h, pySubscript, hfind, bind, Except.bind,
      pure, Except.pure, Option.isSome_some, Bool.not_true, Bool.false_eq_true, if_false] at hp
    have hlen := tracksLoop_length (.obj kvs) _ _ _ hp
    simp only [List.length_nil, Nat.zero_add] at hlen
    rw [hlen]
    exact (isortB_perm _ entries).countP_eq _
  · intro kvs entries rows h hp
    have hfind : findByPyKey kvs (.str "artists") = some (.obj entries) :=
      (findByPyKey_str kvs "artists").trans h
    simp only [prepareArtistsData, pyIn_obj_str, h, pySubscript, hfind, bind, Except.bind,
      pure, Except.pure, Option.isSome_some, Bool.not_true, Bool.false_eq_true, if_false] at hp
    have hlen := artistsLoop_length (.obj kvs) _ _ _ hp
    simp only [List.length_nil, Nat.zero_add] at hlen
    rw [hlen]
    exact (isortB_perm _ entries).countP_eq _
  · intro kvs entries rows h hp
    have hfind : findByPyKey kvs (.str "playlists") = some (.obj entries) :=
      (findByPyKey_str kvs "playlists").trans h
    simp only [preparePlaylistsData, pyIn_obj_str, h, pySubscript, hfind, bind, Except.bind,
      pure, Except.pure, Option.isSome_some, Bool.not_true, Bool.false_eq_true, if_false] at hp
    have heq := Except.ok.inj hp
    rw [← heq, playlistsLoop_length]
    simp only [List.length_nil, Nat.zero_add]
    exact (isortB_perm _ entries).countP_eq _

/-- C7 amended, witnessed on `exC1` (one full-length list album → exactly
one row). -/
theorem c7_amended_witness :
    ([[Json.str "B", Json.str "Y", Json.str "2021", Json.str "2"]] : List (List Json)).length
      = List.countP (fun e => keepAlbumEntry e.2)
          [("1", Json.arr [.str "B", .arr [.int 101, .int 102], .str "11",
            .int 0, .int 0, .int 0, .int 2021])] :=
  c7_amended_short_lists_skipped.1
    [("albums", .obj [("1", .arr [.str "B", .arr [.int 101, .int 102], .str "11",
      .int 0, .int 0, .int 0, .int 2021])]),
     ("artists", .obj [("11", .arr [.str "Y", .arr []])])] _ _ rfl rfl

/-! ## Claim C1 -/

/-- C1 counterexample: the list-form album of `exC1` embeds two track ids
while the library holds no tracks at all.  Its row shows count "2", but
the exact number of tracks whose resolved album reference is this album
is 0 — the shown count is the raw upstream list length. -/
theorem c1_counterexample :
    prepareAlbumsData exC1 = .ok [[.str "B", .str "Y", .str "2021", .str "2"]]
      ∧ specAlbumTrackCount exC1 "1" = 0
      ∧ ¬ (Json.str "2" = Json.str (toString (specAlbumTrackCount exC1 "1"))) := by
  refine ⟨rfl, rfl, ?_⟩
  intro h
  rw [show specAlbumTrackCount exC1 "1" = 0 from rfl] at h
  injection h with h2
  exact absurd h2 (by decide)

theorem pyEq_str_iff (s : String) (e : Json) : pyEq (.str s) e = true ↔ e = .str s := by
  cases e with
  | null => simp [show pyEq (.str s) .null = false from rfl]
  | bool b => simp [show pyEq (.str s) (.bool b) = false from rfl]
  | int n => simp [show pyEq (.str s) (.int n) = false from rfl]
  | str t =>
    rw [show pyEq (.str s) (.str t) = (s == t) from rfl]
    constructor
    · intro h
      exact congrArg Json.str (eq_of_beq h).symm
    · intro h
      injection h with h2
      exact beq_iff_eq.mpr h2.symm
  | arr xs => simp [show pyEq (.str s) (.arr xs) = false from rfl]
  | obj kvs => simp [show pyEq (.str s) (.obj kvs) = false from rfl]

theorem pyEq_str_iff_right (s : String) (e : Json) : pyEq e (.str s) = true ↔ e = .str s := by
  cases e with
  | null => simp [show pyEq .null (.str s) = false from rfl]
  | bool b => simp [show pyEq (.bool b) (.str s) = false from rfl]
  | int n => simp [show pyEq (.int n) (.str s) = false from rfl]
  | str t =>
    rw [show pyEq (.str t) (.str s) = (t == s) from rfl]
    constructor
    · intro h
      exact congrArg Json.str (eq_of_beq h)
    · intro h
      injection h with h2
      exact beq_iff_eq.mpr h2
  | arr xs => simp [show pyEq (.arr xs) (.str s) = false from rfl]
  | obj kvs => simp [show pyEq (.obj kvs) (.str s) = false from rfl]

theorem getCount_bumpCount_self (aid : String) (counts : List (Json × Int)) :
    getCount (bumpCount counts (.str aid)) (.str aid) = getCount counts (.str aid) + 1 := by
  induction counts with
  | nil => simp [bumpCount, getCount, pyEq]
  | cons kc rest ih =>
    obtain ⟨k1, c⟩ := kc
    by_cases h : pyEq (.str aid) k1 = true
    · simp [bumpCount, getCount, h]
    · simp only [Bool.not_eq_true] at h
      simp [bumpCount, getCount, h, ih]

theorem getCount_bumpCount_other (aid : String) (v : Json) (hv : ¬ v = .str aid)
    (counts : List (Json × Int)) :
    getCount (bumpCount counts v) (.str aid) = getCount counts (.str aid) := by
  induction counts with
  | nil =>
    have hva : pyEq (.str aid) v = false := by
      cases hp : pyEq (.str aid) v
      · rfl
      · exact absurd ((pyEq_str_iff aid v).mp hp) hv
    simp [bumpCount, getCount, hva]
  | cons kc rest ih =>
    obtain ⟨k1, c⟩ := kc
    by_cases h1 : pyEq v k1 = true
    · by_cases h2 : pyEq (.str aid) k1 = true
      · exfalso
        have hk : k1 = .str aid := (pyEq_str_iff aid k1).mp h2
        rw [hk] at h1
        exact hv ((pyEq_str_iff_right aid v).mp h1)
      · simp only [Bool.not_eq_true] at h2
        simp [bumpCount, getCount, h1, h2]
    · simp only [Bool.not_eq_true] at h1
      by_cases h2 : pyEq (.str aid) k1 = true
      · simp [bumpCount, getCount, h1, h2]
      · simp only [Bool.not_eq_true] at h2
        simp [bumpCount, getCount, h1, h2, ih]

theorem getCount_countsFold (aid : String) (ts : List (String × Json)) :
    ∀ acc : List (Json × Int),
      getCount (List.foldl (fun acc te =>
          let r := trackArtistRef te.2
          if truthy r then bumpCount acc r else acc) acc ts) (.str aid)
        = getCount acc (.str aid)
          + (ts.countP fun te =>
              match trackArtistRefOpt te.2 with
              | some (.str s2) => s2 == aid
              | _ => false : Nat) := by
  induction ts with
  | nil => intro acc; simp
  | cons te rest ih =>
    intro acc
    simp only [List.foldl_cons, List.countP_cons]
    by_cases ht : truthy (trackArtistRef te.2) = true
    · have hopt : trackArtistRefOpt te.2 = some (trackArtistRef te.2) := by
        simp [trackArtistRefOpt, ht]
      cases hr : trackArtistRef te.2 with
      | str s2 =>
        rw [hr] at ht hopt
        rw [if_pos ht, ih (bumpCount acc (.str s2))]
        by_cases hs : s2 = aid
        · subst hs
          rw [getCount_bumpCount_self]
          have hp : (s2 == s2) = true := beq_iff_eq.mpr rfl
          simp only [hopt, hp, if_true]
          omega
        · rw [getCount_bumpCount_other aid (.str s2) (by simp [hs]) acc]
          have hp : (s2 == aid) = false := beq_eq_false_iff_ne.mpr hs
          simp only [hopt, hp, Bool.false_eq_true, if_false]
          omega
      | null =>
        rw [hr] at ht
        exact absurd ht (by simp [truthy])
      | bool b =>
        rw [hr] at ht hopt
        rw [if_pos ht, ih (bumpCount acc (.bool b))]
        rw [getCount_bumpCount_other aid (.bool b) (by simp) acc]
        simp only [hopt, Bool.false_eq_true, if_false]
        omega
      | int n =>
        rw [hr] at ht hopt
        rw [if_pos ht, ih (bumpCount acc (.int n))]
        rw [getCount_bumpCount_other aid (.int n) (by simp) acc]
        simp only [hopt, Bool.false_eq_true, if_false]
        omega
      | arr xs =>
        rw [hr] at ht hopt
        rw [if_pos ht, ih (bumpCount acc (.arr xs))]
        rw [getCount_bumpCount_other aid (.arr xs) (by simp) acc]
        simp only [hopt, Bool.false_eq_true, if_false]
        omega
      | obj kvs =>
        rw [hr] at ht hopt
        rw [if_pos ht, ih (bumpCount acc (.obj kvs))]
        rw [getCount_bumpCount_other aid (.obj kvs) (by simp) acc]
        simp only [hopt, Bool.false_eq_true, if_false]
        omega
    · have hopt : trackArtistRefOpt te.2 = none := by
        simp only [Bool.not_eq_true] at ht
        simp [trackArtistRefOpt, ht]
      rw [if_neg ht, ih acc]
      simp only [hopt, Bool.false_eq_true, if_false]
      omega

/-- The recomputed per-artist count stored by the normalizer is exactly
the canonical count of tracks attributed to that artist. -/
theorem getCount_computeTrackCounts (ts : List (String × Json)) (aid : String) :
    getCount (computeTrackCounts ts) (.str aid)
      = (specArtistTrackCount ts aid : Int) := by
  have h := getCount_countsFold aid ts []
  rw [show computeTrackCounts ts = List.foldl (fun acc te =>
      let r := trackArtistRef te.2
      if truthy r then bumpCount acc r else acc) [] ts from rfl]
  rw [h]
  rw [show getCount [] (.str aid) = 0 from rfl]
  rw [show specArtistTrackCount ts aid = ts.countP fun te =>
      match trackArtistRefOpt te.2 with
      | some (.str s2) => s2 == aid
      | _ => false from rfl]
  omega

theorem addTrackCounts_mem (as : List (String × Json)) (counts : List (Json × Int)) :
    ∀ av ∈ addTrackCountsToArtists as counts,
      ∃ kvs2, av.2 = .obj kvs2
        ∧ lookupKV kvs2 "track_count" = some (.int (getCount counts (.str av.1))) := by
  intro av hav
  rw [addTrackCountsToArtists] at hav
  obtain ⟨e, he, rfl⟩ := List.mem_map.mp hav
  obtain ⟨aid, a⟩ := e
  cases a with
  | arr l => exact ⟨_, rfl, rfl⟩
  | obj kvs0 => exact ⟨_, rfl, lookupKV_setKey_self kvs0 "track_count" _⟩
  | null => exact ⟨_, rfl, rfl⟩
  | bool b => exact ⟨_, rfl, rfl⟩
  | int n => exact ⟨_, rfl, rfl⟩
  | str s2 => exact ⟨_, rfl, rfl⟩

theorem artistsLoop_norm (ld : Json) (counts : List (Json × Int)) :
    ∀ L : List (String × Json),
      (∀ av ∈ L, ∃ kvs2, av.2 = .obj kvs2
        ∧ lookupKV kvs2 "track_count" = some (.int (getCount counts (.str av.1)))) →
      ∀ acc, artistsLoop ld L acc
        = .ok (acc ++ L.map fun av =>
            [(match av.2 with
              | .obj kvs2 => dictGet kvs2 "name" (.str "Unknown Artist")
              | _ => .str "Unknown Artist"),
             .str (toString (getCount counts (.str av.1)))]) := by
  intro L
  induction L with
  | nil => intro _ acc; simp [artistsLoop]
  | cons av rest ih =>
    intro hall acc
    obtain ⟨kvs2, hav, hcnt⟩ := hall av (List.mem_cons_self av rest)
    obtain ⟨aid, a⟩ := av
    simp only at hav
    subst hav
    simp only [artistsLoop]
    rw [ih (fun x hx => hall x (List.mem_cons_of_mem _ hx))]
    have hdg : dictGet kvs2 "track_count" (.int 0)
        = .int (getCount counts (.str aid)) := by simp [dictGet, hcnt]
    rw [hdg]
    rw [show pyStr (Json.int (getCount counts (Json.str aid)))
      = toString (getCount counts (Json.str aid)) from rfl]
    simp [List.append_assoc]

/-- C1 (amended): artist counts are genuinely recomputed.  On any snapshot
produced by the normalizer from a payload carrying both `tracks` and
`artists`, every projected artist row displays exactly the canonical count
of tracks attributed to that artist id (the number of tracks whose
extracted artist reference — `str(track[6])` for full list tracks, the
truthy `artist_id` field for dict tracks — equals the artist's id string).
Album and playlist rows, by contrast, take their counts from the upstream
`track_count` field or embedded track-id list length (see the
counterexample). -/
theorem c1_amended_artist_counts_recomputed
    (kvs ts as : List (String × Json)) (s : Json)
    (htr : lookupKV kvs "tracks" = some (.obj ts))
    (har : lookupKV kvs "artists" = some (.obj as))
    (hp : preprocessData (.obj kvs) = .ok s) :
    prepareArtistsData s
      = .ok ((isortB (fun a b => strLe (artistNameKey a) (artistNameKey b))
          (addTrackCountsToArtists as (computeTrackCounts ts))).map (normArtistRow ts)) := by
  have hs : s = .obj (setKey kvs "artists"
      (.obj (addTrackCountsToArtists as (computeTrackCounts ts)))) := by
    simp only [preprocessData, htr, har] at hp
    exact (Except.ok.inj hp).symm
  subst hs
  have hlook : lookupKV (setKey kvs "artists"
        (.obj (addTrackCountsToArtists as (computeTrackCounts ts)))) "artists"
      = some (.obj (addTrackCountsToArtists as (computeTrackCounts ts))) :=
    lookupKV_setKey_self kvs "artists" _
  have hfind : findByPyKey (setKey kvs "artists"
        (.obj (addTrackCountsToArtists as (computeTrackCounts ts)))) (.str "artists")
      = some (.obj (addTrackCountsToArtists as (computeTrackCounts ts))) :=
    (findByPyKey_str _ "artists").trans hlook
  simp only [prepareArtistsData, pyIn_obj_str, hlook, pySubscript, hfind, bind, Except.bind,
    pure, Except.pure, Option.isSome_some, Bool.not_true, Bool.false_eq_true, if_false]
  rw [artistsLoop_norm _ (computeTrackCounts ts) _ ?hall []]
  case hall =>
    intro av hmem
    exact addTrackCounts_mem as (computeTrackCounts ts) av
      ((isortB_perm _ _).mem_iff.mp hmem)
  rw [List.nil_append]
  congr 1
  apply List.map_congr_left
  intro av hmem
  rw [normArtistRow, getCount_computeTrackCounts]
  rfl

/-- C1 amended, witnessed on `rawC4` / `normC4`. -/
theorem c1_amended_witness :
    prepareArtistsData normC4
      = .ok ((isortB (fun a b => strLe (artistNameKey a) (artistNameKey b))
          (addTrackCountsToArtists
            [("a1", .arr [.str "Ann", .arr []]),
             ("a2", .obj [("name", .str "Bo"), ("track_count", .int 99)])]
            (computeTrackCounts
              [("t1", .obj [("title", .str "S"), ("artist_id", .str "a1")])]))).map
            (normArtistRow [("t1", .obj [("title", .str "S"), ("artist_id", .str "a1")])])) :=
  c1_amended_artist_counts_recomputed
    [("tracks", .obj [("t1", .obj [("title", .str "S"), ("artist_id", .str "a1")])]),
     ("artists", .obj [("a1", .arr [.str "Ann", .arr []]),
       ("a2", .obj [("name", .str "Bo"), ("track_count", .int 99)])])]
    [("t1", .obj [("title", .str "S"), ("artist_id", .str "a1")])]
    [("a1", .arr [.str "Ann", .arr []]),
     ("a2", .obj [("name", .str "Bo"), ("track_count", .int 99)])]
    normC4 rfl rfl rfl

/-! ## Claim C10 -/

theorem searchLoop_year_null (artists albums : Json) (ql : String) (limit : Nat) :
    ∀ (ts : List (String × Json)) (acc res : List Json),
      (∀ r ∈ acc, hasNullYear r = true) →
      searchLoop artists albums ql limit ts acc = .ok res →
      ∀ r ∈ res, hasNullYear r = true := by
  intro ts
  induction ts with
  | nil =>
    intro acc res hacc h
    obtain rfl := (Except.ok.inj h).symm
    exact hacc
  | cons te rest ih =>
    obtain ⟨tid, td⟩ := te
    intro acc res hacc h
    by_cases hlim : limit ≤ acc.length
    · simp only [searchLoop, if_pos hlim] at h
      obtain rfl := (Except.ok.inj h).symm
      exact hacc
    · cases td with
      | arr l =>
        by_cases hl : 3 ≤ l.length
        · by_cases hm : strContains (pyLower (pyStr (l.getD 2 .null))) ql = true
          · cases hg : searchResolveName artists
                (if 6 < l.length then Json.str (pyStr (l.getD 6 .null)) else .null)
                "name" "Unknown Artist" with
            | error err =>
              simp only [searchLoop, if_neg hlim, if_pos hl, hm, if_true, hg,
                bind, Except.bind] at h
              exact absurd h (by simp)
            | ok an =>
              cases hb : searchResolveName albums
                  (if 5 < l.length then Json.str (pyStr (l.getD 5 .null)) else .null)
                  "title" "Unknown Album" with
              | error err =>
                simp only [searchLoop, if_neg hlim, if_pos hl, hm, if_true, hg, hb,
                  bind, Except.bind] at h
                exact absurd h (by simp)
              | ok bn =>
                simp only [searchLoop, if_neg hlim, if_pos hl, hm, if_true, hg, hb,
                  bind, Except.bind] at h
                refine ih _ _ ?_ h
                intro r hr
                rcases List.mem_append.mp hr with hr | hr
                · exact hacc r hr
                · rw [List.mem_singleton.mp hr]
                  rfl
          · simp only [Bool.not_eq_true] at hm
            simp only [searchLoop, if_neg hlim, if_pos hl, hm, Bool.false_eq_true,
              if_false] at h
            exact ih _ _ hacc h
        · simp only [searchLoop, if_neg hlim, if_neg hl] at h
          exact ih _ _ hacc h
      | obj kvs =>
        cases hti : dictGet kvs "title" (.str "") with
        | str t =>
          by_cases hm : strContains (pyLower t) ql = true
          · cases hg : searchResolveName artists (dictGet kvs "artist_id" .null)
                "name" "Unknown Artist" with
            | error err =>
              simp only [searchLoop, if_neg hlim, hti, hm, if_true, hg,
                bind, Except.bind] at h
              exact absurd h (by simp)
            | ok an =>
              cases hb : searchResolveName albums (dictGet kvs "album_id" .null)
                  "title" "Unknown Album" with
              | error err =>
                simp only [searchLoop, if_neg hlim, hti, hm, if_true, hg, hb,
                  bind, Except.bind] at h
                exact absurd h (by simp)
              | ok bn =>
                simp only [searchLoop, if_neg hlim, hti, hm, if_true, hg, hb,
                  bind, Except.bind] at h
                refine ih _ _ ?_ h
                intro r hr
                rcases List.mem_append.mp hr with hr | hr
                · exact hacc r hr
                · rw [List.mem_singleton.mp hr]
                  rfl
          · simp only [Bool.not_eq_true] at hm
            simp only [searchLoop, if_neg hlim, hti, hm, Bool.false_eq_true, if_false] at h
            exact ih _ _ hacc h
        | null =>
          simp only [searchLoop, if_neg hlim, hti] at h
          exact absurd h (by simp)
        | bool b =>
          simp only [searchLoop, if_neg hlim, hti] at h
          exact absurd h (by simp)
        | int n =>
          simp only [searchLoop, if_neg hlim, hti] at h
          exact absurd h (by simp)
        | arr xs =>
          simp only [searchLoop, if_neg hlim, hti] at h
          exact absurd h (by simp)
        | obj kvs2 =>
          simp only [searchLoop, if_neg hlim, hti] at h
          exact absurd h (by simp)
      | null =>
        simp only [searchLoop, if_neg hlim] at h
        exact ih _ _ hacc h
      | bool b =>
        simp only [searchLoop, if_neg hlim] at h
        exact ih _ _ hacc h
      | int n =>
        simp only [searchLoop, if_neg hlim] at h
        exact ih _ _ hacc h
      | str s2 =>
        simp only [searchLoop, if_neg hlim] at h
        exact ih _ _ hacc h

/-- C10: every element of a `search_tracks` result has its "year" field
equal to `None`, whatever year data the stored track carries (the result
dict is built with a literal `"year": None`). -/
theorem c10_search_year_always_none (file : CacheFile) (q : String) (limit : Nat) :
    ∀ r ∈ searchTracksSync file q limit, hasNullYear r = true := by
  intro r hr
  unfold searchTracksSync at hr
  cases hc : hasCachedData file with
  | false => rw [hc] at hr; simp at hr
  | true =>
    rw [hc] at hr
    simp only [Bool.not_true, Bool.false_eq_true, if_false] at hr
    cases hld : loadCachedLibrary file with
    | error e => rw [hld] at hr; simp at hr
    | ok data =>
      rw [hld] at hr
      cases data with
      | obj kvs =>
        cases htr : dictGet kvs "tracks" (.obj []) with
        | obj ts =>
          simp only [searchBody, htr] at hr
          cases hsb : searchLoop (dictGet kvs "artists" (.obj []))
              (dictGet kvs "albums" (.obj [])) (pyLower q) limit ts [] with
          | error err => rw [hsb] at hr; simp at hr
          | ok res =>
            rw [hsb] at hr
            exact searchLoop_year_null _ _ _ _ ts [] res (by simp) hsb r hr
        | null => simp only [searchBody, htr] at hr; simp at hr
        | bool b => simp only [searchBody, htr] at hr; simp at hr
        | int n => simp only [searchBody, htr] at hr; simp at hr
        | str s2 => simp only [searchBody, htr] at hr; simp at hr
        | arr xs => simp only [searchBody, htr] at hr; simp at hr
      | null => simp [searchBody] at hr
      | bool b => simp [searchBody] at hr
      | int n => simp [searchBody] at hr
      | str s2 => simp [searchBody] at hr
      | arr xs => simp [searchBody] at hr

/-- C10, witnessed: the lone result for the year-carrying list track of
`exC10` has a null year. -/
theorem c10_witness :
    hasNullYear (.obj [("id", .str "t1"), ("title", .str "Hello"),
      ("artist", .str "Unknown Artist"), ("album", .str "Unknown Album"),
      ("year", .null)]) = true := by
  apply c10_search_year_always_none exC10 "" 10
  rw [show searchTracksSync exC10 "" 10
    = [.obj [("id", .str "t1"), ("title", .str "Hello"),
        ("artist", .str "Unknown Artist"), ("album", .str "Unknown Album"),
        ("year", .null)]] from rfl]
  exact List.mem_singleton.mpr rfl

/-! ## Claim C8 -/

theorem findByPyKey_isSome (idv : Json) :
    ∀ A : List (String × Json), (A.any fun kv => pyEq idv (.str kv.1)) = true →
      ∃ v, findByPyKey A idv = some v := by
  intro A
  induction A with
  | nil => intro h; simp at h
  | cons kv rest ih =>
    intro h
    obtain ⟨k1, v1⟩ := kv
    cases hk : pyEq idv (.str k1) with
    | true => exact ⟨v1, by simp [findByPyKey, hk]⟩
    | false =>
      simp only [List.any_cons, hk, Bool.false_or] at h
      obtain ⟨v, hv⟩ := ih h
      exact ⟨v, by simp [findByPyKey, hk, hv]⟩

theorem searchResolveName_obj_ok (A : List (String × Json)) (idv : Json) (f d : String)
    (hid : hashableScalar idv = true) :
    ∃ v, searchResolveName (.obj A) idv f d = .ok v := by
  by_cases ht : truthy idv = true
  · have hin : pyIn idv (.obj A) = .ok (A.any fun kv => pyEq idv (.str kv.1)) := by
      cases idv with
      | arr xs => simp [hashableScalar] at hid
      | obj kvs => simp [hashableScalar] at hid
      | null => rfl
      | bool b => rfl
      | int n => rfl
      | str s => rfl
    cases hmem : (A.any fun kv => pyEq idv (.str kv.1)) with
    | false =>
      exact ⟨.str d, by
        simp [searchResolveName, ht, hin, hmem, bind, Except.bind, pure, Except.pure]⟩
    | true =>
      obtain ⟨v, hv⟩ := findByPyKey_isSome idv A hmem
      have hsub : pySubscript (.obj A) idv = .ok v := by
        cases idv with
        | arr xs => simp [hashableScalar] at hid
        | obj kvs => simp [hashableScalar] at hid
        | null => simp [pySubscript, hv]
        | bool b => simp [pySubscript, hv]
        | int n => simp [pySubscript, hv]
        | str s => simp [pySubscript, hv]
      cases v with
      | obj kvs2 =>
        exact ⟨dictGet kvs2 f (.str d), by
          simp [searchResolveName, ht, hin, hmem, hsub, bind, Except.bind, pure, Except.pure]⟩
      | arr l =>
        by_cases hl : l.isEmpty = true
        · exact ⟨.str d, by
            simp [searchResolveName, ht, hin, hmem, hsub, hl, bind, Except.bind, pure,
              Except.pure]⟩
        · simp only [Bool.not_eq_true] at hl
          exact ⟨l.getD 0 .null, by
            simp [searchResolveName, ht, hin, hmem, hsub, hl, bind, Except.bind, pure,
              Except.pure]⟩
      | null =>
        exact ⟨.str d, by
          simp [searchResolveName, ht, hin, hmem, hsub, bind, Except.bind, pure, Except.pure]⟩
      | bool b =>
        exact ⟨.str d, by
          simp [searchResolveName, ht, hin, hmem, hsub, bind, Except.bind, pure, Except.pure]⟩
      | int n =>
        exact ⟨.str d, by
          simp [searchResolveName, ht, hin, hmem, hsub, bind, Except.bind, pure, Except.pure]⟩
      | str s =>
        exact ⟨.str d, by
          simp [searchResolveName, ht, hin, hmem, hsub, bind, Except.bind, pure, Except.pure]⟩
  · simp only [Bool.not_eq_true] at ht
    exact ⟨.str d, by simp [searchResolveName, ht, pure, Except.pure]⟩

theorem searchLoop_spec (A B : List (String × Json)) (ql : String) (limit : Nat) :
    ∀ ts : List (String × Json),
      (∀ te ∈ ts, wfTrackEntry te.2 = true) →
      ∀ acc : List Json, acc.length ≤ limit →
      searchLoop (.obj A) (.obj B) ql limit ts acc
        = .ok (acc ++ ((searchMatchesL ts ql).take (limit - acc.length)).map
            (specSearchRow (.obj A) (.obj B))) := by
  intro ts
  induction ts with
  | nil =>
    intro _ acc _
    simp [searchLoop, searchMatchesL]
  | cons te rest ih =>
    obtain ⟨tid, td⟩ := te
    intro hwf acc hle
    have hwfrest : ∀ te ∈ rest, wfTrackEntry te.2 = true :=
      fun te hte => hwf te (List.mem_cons_of_mem _ hte)
    by_cases hlim : limit ≤ acc.length
    · rw [show limit - acc.length = 0 from by omega]
      simp [searchLoop, if_pos hlim]
    · cases td with
      | arr l =>
        by_cases hl : 3 ≤ l.length
        · by_cases hm : strContains (pyLower (pyStr (l.getD 2 .null))) ql = true
          · obtain ⟨v1, hres1⟩ := searchResolveName_obj_ok A
              (if 6 < l.length then Json.str (pyStr (l.getD 6 .null)) else .null)
              "name" "Unknown Artist"
              (by by_cases h6 : 6 < l.length <;> simp [h6, hashableScalar])
            obtain ⟨v2, hres2⟩ := searchResolveName_obj_ok B
              (if 5 < l.length then Json.str (pyStr (l.getD 5 .null)) else .null)
              "title" "Unknown Album"
              (by by_cases h5 : 5 < l.length <;> simp [h5, hashableScalar])
            have hpred : ((fun (te : String × Json) => match specTrackTitle te.2 with
                | some t => strContains (pyLower t) ql
                | none => false) (tid, Json.arr l)) = true := by
              show (match specTrackTitle (Json.arr l) with
                | some t => strContains (pyLower t) ql
                | none => false) = true
              rw [show specTrackTitle (Json.arr l) = some (pyStr (l.getD 2 .null)) from by
                simp only [specTrackTitle, if_pos hl]]
              exact hm
            have hmat : searchMatchesL ((tid, Json.arr l) :: rest) ql
                = (tid, Json.arr l) :: searchMatchesL rest ql := by
              simp only [searchMatchesL]
              rw [List.filter_cons, if_pos hpred]
            simp only [searchLoop, if_neg hlim, if_pos hl, hm, if_true, hres1, hres2,
              bind, Except.bind]
            rw [ih hwfrest _ (show (acc ++ [Json.obj [("id", .str tid),
                ("title", .str (pyStr (l.getD 2 .null))),
                ("artist", v1), ("album", v2), ("year", .null)]]).length ≤ limit from by
              simp only [List.length_append, List.length_cons, List.length_nil]
              omega)]
            rw [hmat, (show limit - acc.length = (limit - (acc.length + 1)) + 1 from by omega),
              List.take_succ_cons]
            simp only [List.map_cons, List.length_append, List.length_cons, List.length_nil]
            rw [show specSearchRow (.obj A) (.obj B) (tid, Json.arr l)
              = .obj [("id", .str tid), ("title", .str (pyStr (l.getD 2 .null))),
                  ("artist", v1), ("album", v2), ("year", .null)] from by
              simp only [specSearchRow, hres1, hres2, exceptD]]
            simp only [List.append_assoc, List.singleton_append]
          · simp only [Bool.not_eq_true] at hm
            have hpred : ((fun (te : String × Json) => match specTrackTitle te.2 with
                | some t => strContains (pyLower t) ql
                | none => false) (tid, Json.arr l)) = false := by
              show (match specTrackTitle (Json.arr l) with
                | some t => strContains (pyLower t) ql
                | none => false) = false
              rw [show specTrackTitle (Json.arr l) = some (pyStr (l.getD 2 .null)) from by
                simp only [specTrackTitle, if_pos hl]]
              exact hm
            have hmat : searchMatchesL ((tid, Json.arr l) :: rest) ql
                = searchMatchesL rest ql := by
              simp only [searchMatchesL]
              rw [List.filter_cons, if_neg (fun hh => Bool.noConfusion (hpred.symm.trans hh))]
            simp only [searchLoop, if_neg hlim, if_pos hl, hm, Bool.false_eq_true, if_false]
            rw [ih hwfrest acc hle, hmat]
        · have hpred : ((fun (te : String × Json) => match specTrackTitle te.2 with
              | some t => strContains (pyLower t) ql
              | none => false) (tid, Json.arr l)) = false := by
            show (match specTrackTitle (Json.arr l) with
              | some t => strContains (pyLower t) ql
              | none => false) = false
            rw [show specTrackTitle (Json.arr l) = none from by
              simp only [specTrackTitle, if_neg hl]]
          have hmat : searchMatchesL ((tid, Json.arr l) :: rest) ql
              = searchMatchesL rest ql := by
            simp only [searchMatchesL]
            rw [List.filter_cons, if_neg (fun hh => Bool.noConfusion (hpred.symm.trans hh))]
          simp only [searchLoop, if_neg hlim, if_neg hl]
          rw [ih hwfrest acc hle, hmat]
      | obj kvs =>
        have hw := hwf (tid, .obj kvs) (List.mem_cons_self _ rest)
        simp only [wfTrackEntry, Bool.and_eq_true] at hw
        obtain ⟨⟨hwt, hwa⟩, hwb⟩ := hw
        cases hti : dictGet kvs "title" (.str "") with
        | str t =>
          by_cases hm : strContains (pyLower t) ql = true
          · obtain ⟨v1, hres1⟩ := searchResolveName_obj_ok A (dictGet kvs "artist_id" .null)
              "name" "Unknown Artist" hwa
            obtain ⟨v2, hres2⟩ := searchResolveName_obj_ok B (dictGet kvs "album_id" .null)
              "title" "Unknown Album" hwb
            have hpred : ((fun (te : String × Json) => match specTrackTitle te.2 with
                | some t2 => strContains (pyLower t2) ql
                | none => false) (tid, Json.obj kvs)) = true := by
              show (match specTrackTitle (Json.obj kvs) with
                | some t2 => strContains (pyLower t2) ql
                | none => false) = true
              rw [show specTrackTitle (Json.obj kvs) = some t from by
                simp only [specTrackTitle, hti]]
              exact hm
            have hmat : searchMatchesL ((tid, Json.obj kvs) :: rest) ql
                = (tid, Json.obj kvs) :: searchMatchesL rest ql := by
              simp only [searchMatchesL]
              rw [List.filter_cons, if_pos hpred]
            simp only [searchLoop, if_neg hlim, hti, hm, if_true, hres1, hres2,
              bind, Except.bind]
            rw [ih hwfrest _ (show (acc ++ [Json.obj [("id", .str tid), ("title", .str t),
                ("artist", v1), ("album", v2), ("year", .null)]]).length ≤ limit from by
              simp only [List.length_append, List.length_cons, List.length_nil]
              omega)]
            rw [hmat, (show limit - acc.length = (limit - (acc.length + 1)) + 1 from by omega),
              List.take_succ_cons]
            simp only [List.map_cons, List.length_append, List.length_cons, List.length_nil]
            rw [show specSearchRow (.obj A) (.obj B) (tid, Json.obj kvs)
              = .obj [("id", .str tid), ("title", .str t),
                  ("artist", v1), ("album", v2), ("year", .null)] from by
              simp only [specSearchRow, hres1, hres2, exceptD, hti, pyStr]]
            simp only [List.append_assoc, List.singleton_append]
          · simp only [Bool.not_eq_true] at hm
            have hpred : ((fun (te : String × Json) => match specTrackTitle te.2 with
                | some t2 => strContains (pyLower t2) ql
                | none => false) (tid, Json.obj kvs)) = false := by
              show (match specTrackTitle (Json.obj kvs) with
                | some t2 => strContains (pyLower t2) ql
                | none => false) = false
              rw [show specTrackTitle (Json.obj kvs) = some t from by
                simp only [specTrackTitle, hti]]
              exact hm
            have hmat : searchMatchesL ((tid, Json.obj kvs) :: rest) ql
                = searchMatchesL rest ql := by
              simp only [searchMatchesL]
              rw [List.filter_cons, if_neg (fun hh => Bool.noConfusion (hpred.symm.trans hh))]
            simp only [searchLoop, if_neg hlim, hti, hm, Bool.false_eq_true, if_false]
            rw [ih hwfrest acc hle, hmat]
        | null => rw [hti] at hwt; simp at hwt
        | bool b => rw [hti] at hwt; simp at hwt
        | int n => rw [hti] at hwt; simp at hwt
        | arr xs => rw [hti] at hwt; simp at hwt
        | obj kvs2 => rw [hti] at hwt; simp at hwt
      | null =>
        have hmat : searchMatchesL ((tid, Json.null) :: rest) ql
            = searchMatchesL rest ql := by
          simp only [searchMatchesL]
          rw [List.filter_cons, if_neg (fun hh => Bool.noConfusion hh)]
        simp only [searchLoop, if_neg hlim]
        rw [ih hwfrest acc hle, hmat]
      | bool b =>
        have hmat : searchMatchesL ((tid, Json.bool b) :: rest) ql
            = searchMatchesL rest ql := by
          simp only [searchMatchesL]
          rw [List.filter_cons, if_neg (fun hh => Bool.noConfusion hh)]
        simp only [searchLoop, if_neg hlim]
        rw [ih hwfrest acc hle, hmat]
      | int n =>
        have hmat : searchMatchesL ((tid, Json.int n) :: rest) ql
            = searchMatchesL rest ql := by
          simp only [searchMatchesL]
          rw [List.filter_cons, if_neg (fun hh => Bool.noConfusion hh)]
        simp only [searchLoop, if_neg hlim]
        rw [ih hwfrest acc hle, hmat]
      | str s2 =>
        have hmat : searchMatchesL ((tid, Json.str s2) :: rest) ql
            = searchMatchesL rest ql := by
          simp only [searchMatchesL]
          rw [List.filter_cons, if_neg (fun hh => Bool.noConfusion hh)]
        simp only [searchLoop, if_neg hlim]
        rw [ih hwfrest acc hle, hmat]

/-- C8 counterexample: a cached snapshot with an integer-titled dict track
followed by a matching track.  `title.lower()` raises on the first entry,
the exception is caught and the whole search returns `[]` — not the first
min(limit, matches) = 1 matching tracks the claim requires. -/
theorem c8_counterexample :
    (searchTracksSync (.stored (.obj exC8)) "a" 5).length = 0
      ∧ (specSearchMatches (tracksEntriesOf exC8) "a").length = 1
      ∧ ¬ ((searchTracksSync (.stored (.obj exC8)) "a" 5).length
            = min 5 (specSearchMatches (tracksEntriesOf exC8) "a").length) := by
  refine ⟨rfl, rfl, ?_⟩
  intro h
  rw [show (searchTracksSync (.stored (.obj exC8)) "a" 5).length = 0 from rfl] at h
  rw [show min 5 (specSearchMatches (tracksEntriesOf exC8) "a").length = 1 from rfl] at h
  exact absurd h (by decide)

/-- C8 (amended): on a well-formed cached snapshot (collections are dicts,
every object-form track has a string title and hashable id fields — i.e.
whenever extraction/matching cannot raise), search returns exactly the
first min(limit, matches) case-insensitive title matches in snapshot
iteration order with no further sorting; the empty query matches every
usable track.  When extraction raises (see the counterexample) the whole
search returns the empty list instead. -/
theorem c8_amended_search_take_filter (kvs : List (String × Json)) (q : String) (limit : Nat)
    (hwf : wfSearchData kvs = true) :
    searchTracksSync (.stored (.obj kvs)) q limit
      = ((specSearchMatches (tracksEntriesOf kvs) q).take limit).map
          (specSearchRow (dictGet kvs "artists" (.obj [])) (dictGet kvs "albums" (.obj [])))
    ∧ (searchTracksSync (.stored (.obj kvs)) q limit).length
        = min limit (specSearchMatches (tracksEntriesOf kvs) q).length := by
  simp only [wfSearchData, Bool.and_eq_true] at hwf
  obtain ⟨⟨hwt, hwa⟩, hwb⟩ := hwf
  cases htr : dictGet kvs "tracks" (.obj []) with
  | obj ts =>
    cases har : dictGet kvs "artists" (.obj []) with
    | obj A =>
      cases hal : dictGet kvs "albums" (.obj []) with
      | obj B =>
        have hwts : ∀ te ∈ ts, wfTrackEntry te.2 = true := by
          rw [htr] at hwt
          intro te hte
          exact List.all_eq_true.mp hwt te hte
        have hloop := searchLoop_spec A B (pyLower q) limit ts hwts [] (Nat.zero_le limit)
        have hbody : searchBody (.obj kvs) q limit
            = .ok (((searchMatchesL ts (pyLower q)).take limit).map
                (specSearchRow (.obj A) (.obj B))) := by
          simp only [searchBody, htr, har, hal, hloop, List.nil_append, List.length_nil,
            Nat.sub_zero]
        have hsync : searchTracksSync (.stored (.obj kvs)) q limit
            = ((searchMatchesL ts (pyLower q)).take limit).map
                (specSearchRow (.obj A) (.obj B)) := by
          simp only [searchTracksSync, hasCachedData, Bool.not_true, Bool.false_eq_true,
            if_false, loadCachedLibrary, hbody]
        have hte : tracksEntriesOf kvs = ts := by simp [tracksEntriesOf, htr]
        constructor
        · rw [hsync, hte]
          rfl
        · rw [hsync, hte]
          rw [show specSearchMatches ts q = searchMatchesL ts (pyLower q) from rfl]
          rw [List.length_map, List.length_take]
      | null => rw [hal] at hwb; simp at hwb
      | bool b => rw [hal] at hwb; simp at hwb
      | int n => rw [hal] at hwb; simp at hwb
      | str s => rw [hal] at hwb; simp at hwb
      | arr xs => rw [hal] at hwb; simp at hwb
    | null => rw [har] at hwa; simp at hwa
    | bool b => rw [har] at hwa; simp at hwa
    | int n => rw [har] at hwa; simp at hwa
    | str s => rw [har] at hwa; simp at hwa
    | arr xs => rw [har] at hwa; simp at hwa
  | null => rw [htr] at hwt; simp at hwt
  | bool b => rw [htr] at hwt; simp at hwt
  | int n => rw [htr] at hwt; simp at hwt
  | str s => rw [htr] at hwt; simp at hwt
  | arr xs => rw [htr] at hwt; simp at hwt

/-- C8 amended, witnessed on `wfC8` (two matches, limit 1: exactly the
first match comes back). -/
theorem c8_amended_witness :
    searchTracksSync (.stored (.obj wfC8)) "ab" 1
      = ((specSearchMatches (tracksEntriesOf wfC8) "ab").take 1).map
          (specSearchRow (dictGet wfC8 "artists" (.obj [])) (dictGet wfC8 "albums" (.obj [])))
    ∧ (searchTracksSync (.stored (.obj wfC8)) "ab" 1).length
        = min 1 (specSearchMatches (tracksEntriesOf wfC8) "ab").length :=
  c8_amended_search_take_filter wfC8 "ab" 1 rfl
